import Mathlib

/-!
Shallow embedding of the akkeris/s3-broker core: the durable store
(resources, tasks, plans, services), the storage operations, the AWS S3
provider, the synchronous OSB business logic and the task worker, together
with theorems settling the frozen claims about them.

Machine integers are modelled as Nat (retries, timestamps, HTTP status
codes); SQL timestamps are an abstract monotone counter Store.now that is
bumped by every mutating storage call; external effects (AWS calls, HTTP,
the json library on opaque blobs, environment expansion) are oracle fields
of an environment record, and every fallible operation returns Except.
-/

namespace S3Broker

/-- Status vocabulary helper from the source: available statuses. -/
def IsAvailable (status : String) : Bool :=
  status == "available" || status == "RUNNABLE"

/-- Status vocabulary helper from the source: ready (usable for reads). -/
def IsReady (status : String) : Bool :=
  status == "available" || status == "configuring-enhanced-monitoring" ||
  status == "storage-optimization" || status == "backing-up" ||
  status == "RUNNABLE" || status == "UNKNOWN_STATE"

/-- Status vocabulary helper from the source: in-progress statuses. -/
def InProgress (status : String) : Bool :=
  status == "creating" || status == "starting" || status == "modifying" ||
  status == "rebooting" || status == "moving-to-vpc" ||
  status == "renaming" || status == "upgrading" || status == "backtracking" ||
  status == "maintenance" || status == "resetting-master-credentials" ||
  status == "rebooting cluster nodes" ||
  status == "PENDING_CREATE" || status == "MAINTENANCE"

/-- Status vocabulary helper from the source: statuses permitting GetBinding. -/
def CanGetBindings (status : String) : Bool :=
  status != "creating" && status != "starting" && status != "modifying" &&
  status != "stopping" && status != "stopped" && status != "deleting" && status != "deleted" &&
  status != "incompatible-network" &&
  status != "SUSPENDED" && status != "PENDING_CREATE" && status != "MAINTENANCE" &&
  status != "FAILED" && status != "UNKNOWN_STATE"

/-- Row of the resources table (id is the primary key; soft delete flag). -/
structure ResourceRow where
  id : String
  name : String
  planId : String
  claimed : Bool
  status : String
  username : String
  password : String
  endpoint : String
  updated : Nat
  deleted : Bool
deriving DecidableEq, Repr

/-- Row of the tasks table. Task ids are modelled as Nat (generated uuids). -/
structure TaskRow where
  task : Nat
  resource : String
  action : String
  status : String
  retries : Nat
  metadata : String
  result : String
  updated : Nat
  started : Option Nat
  finished : Option Nat
  deleted : Bool
deriving DecidableEq, Repr

/-- Row of the services table (columns read by servicesQuery). -/
structure ServiceRow where
  service : String
  name : String
  humanName : String
  description : String
  categories : String
  image : String
  beta : Bool
  deprecated : Bool
  deleted : Bool
deriving DecidableEq, Repr

/-- Row of the plans table (columns read by plansQuery). -/
structure PlanRow where
  plan : String
  service : String
  name : String
  humanName : String
  description : String
  version : String
  engineType : String
  scheme : String
  categories : String
  costCents : Nat
  costUnit : String
  attributes : String
  provider : String
  providerPrivateDetails : String
  installInside : Bool
  installOutside : Bool
  multipleInstalls : Bool
  sharing : Bool
  preprovision : Nat
  beta : Bool
  deprecated : Bool
  deleted : Bool
deriving DecidableEq, Repr

/-- The relational store: the four tables plus a monotone clock used for
every now() stamp, and the next generated task uuid. -/
structure Store where
  services : List ServiceRow
  plans : List PlanRow
  resources : List ResourceRow
  tasks : List TaskRow
  now : Nat
  nextTask : Nat
deriving DecidableEq, Repr

/-- Primary key uniqueness of a task list, used where a claim needs to
identify a row by id. -/
def tasksUnique : List TaskRow → Bool
  | [] => true
  | t :: ts => !(ts.any (fun u => u.task == t.task)) && tasksUnique ts

/-- Primary key uniqueness of a resource list. -/
def resourcesUnique : List ResourceRow → Bool
  | [] => true
  | r :: rs => !(rs.any (fun u => u.id == r.id)) && resourcesUnique rs

/-- Entry as returned by Storage.GetInstance (the Go Entry struct: the row
plus the count of currently started tasks referencing it). -/
structure Entry where
  id : String
  name : String
  planId : String
  claimed : Bool
  tasks : Nat
  status : String
  username : String
  password : String
  endpoint : String
deriving DecidableEq, Repr

/-- Storage.ValidateInstanceID: fails when ANY resources row (soft-deleted
included) carries the id. -/
def validateInstanceID (s : Store) (id : String) : Except String Unit :=
  if s.resources.any (fun r => r.id == id) then
    .error "The instance id is already in use (even if deleted)"
  else
    .ok ()

/-- Count of non-deleted started tasks referencing a resource id (the
subselect in the GetInstance query). -/
def startedTaskCount (s : Store) (id : String) : Nat :=
  (s.tasks.filter (fun t => t.resource == id && t.status == "started" && !t.deleted)).length

/-- Storage.GetInstance: the non-deleted row with the id, joined with the
started-task count; the "Cannot find resource instance" sentinel when absent. -/
def getInstanceEntry (s : Store) (id : String) : Except String Entry :=
  match s.resources.find? (fun r => r.id == id && !r.deleted) with
  | none => .error "Cannot find resource instance"
  | some r => .ok ⟨r.id, r.name, r.planId, r.claimed, startedTaskCount s id,
                  r.status, r.username, r.password, r.endpoint⟩

/-- Storage.AddInstance: inserts a new claimed row; the primary key rejects
an id already present in any row. -/
def addInstance (s : Store) (id name planId status username password endpoint : String) :
    Except String Store :=
  if s.resources.any (fun r => r.id == id) then
    .error "pq: duplicate key value violates unique constraint resources_pkey"
  else
    .ok { s with
      resources := s.resources ++
        [⟨id, name, planId, true, status, username, password, endpoint, s.now, false⟩],
      now := s.now + 1 }

/-- Storage.AddTask: inserts a pending task with retries 0; the foreign key
tasks.resource -> resources.id rejects a resource id with no row at all. -/
def addTask (s : Store) (resourceId action metadata : String) :
    Except String (Nat × Store) :=
  if s.resources.any (fun r => r.id == resourceId) then
    .ok (s.nextTask, { s with
      tasks := s.tasks ++
        [⟨s.nextTask, resourceId, action, "pending", 0, metadata, "", s.now, none, none, false⟩],
      nextTask := s.nextTask + 1,
      now := s.now + 1 })
  else
    .error "pq: insert or update on table tasks violates foreign key constraint tasks_resource_fkey"

/-- Storage.UpdateTask with coalesce semantics: each field is optional and
retains its prior value when absent; the update trigger bumps updated. -/
def updateTask (s : Store) (id : Nat) (status : Option String) (retries : Option Nat)
    (metadata result : Option String) (started finished : Option Nat) : Store :=
  { s with
    tasks := s.tasks.map (fun t =>
      if t.task == id then
        { t with
          status := status.getD t.status,
          retries := retries.getD t.retries,
          metadata := metadata.getD t.metadata,
          result := result.getD t.result,
          started := match started with | some v => some v | none => t.started,
          finished := match finished with | some v => some v | none => t.finished,
          updated := s.now }
      else t),
    now := s.now + 1 }

/-- FinishedTask helper from tasks.go: terminal write stamping finished=now. -/
def finishedTask (s : Store) (taskId : Nat) (retries : Nat) (result status : String) : Store :=
  updateTask s taskId (some status) (some retries) none (some result) none (some s.now)

/-- UpdateTaskStatus helper from tasks.go: write that never touches finished. -/
def updateTaskStatus (s : Store) (taskId : Nat) (retries : Nat) (result status : String) : Store :=
  updateTask s taskId (some status) (some retries) none (some result) none none

/-- Storage.UpdateInstance: updates plan, endpoint, status, credentials and
name of the row with the given id (update trigger bumps updated). -/
def updateInstance (s : Store) (id planId endpoint status username password name : String) :
    Store :=
  { s with
    resources := s.resources.map (fun r =>
      if r.id == id then
        { r with planId := planId, endpoint := endpoint, status := status,
                 username := username, password := password, name := name, updated := s.now }
      else r),
    now := s.now + 1 }

/-- Storage.DeleteInstance: soft-deletes the row and all tasks referencing it. -/
def deleteInstance (s : Store) (id : String) : Store :=
  { s with
    tasks := s.tasks.map (fun t => if t.resource == id then { t with deleted := true } else t),
    resources := s.resources.map (fun r => if r.id == id then { r with deleted := true } else r),
    now := s.now + 1 }

/-- Pool candidate selection of GetUnclaimedInstance: any row with
claimed=false, status=available, deleted=false, a different id, and the plan. -/
def poolCandidate (s : Store) (planId newId : String) : Option ResourceRow :=
  s.resources.find? (fun r =>
    !r.claimed && r.status == "available" && !r.deleted && r.id != newId && r.planId == planId)

/-- Storage.GetUnclaimedInstance: the atomic pool-claim transaction.
Selects a pooled row, inserts a copy under the new id with claimed=true,
reparents non-deleted tasks, deletes the pooled row; any failure rolls the
transaction back (modelled by returning the untouched store). -/
def getUnclaimedInstance (s : Store) (planId newId : String) :
    (Except String Entry) × Store :=
  match poolCandidate s planId newId with
  | none => (.error "Cannot find resource instance", s)
  | some row =>
    if s.resources.any (fun r => r.id == newId) then
      (.error "pq: duplicate key value violates unique constraint resources_pkey", s)
    else
      let resources1 := s.resources ++
        [⟨newId, row.name, row.planId, true, row.status, row.username, row.password,
          row.endpoint, s.now, false⟩]
      let tasks1 := s.tasks.map (fun t =>
        if t.resource == row.id && !t.deleted then
          { t with resource := newId, updated := s.now }
        else t)
      let resources2 := resources1.filter (fun r =>
        !(r.id == row.id && !r.deleted && !r.claimed))
      (.ok ⟨newId, row.name, row.planId, true, 0, row.status, row.username, row.password,
            row.endpoint⟩,
       { s with resources := resources2, tasks := tasks1, now := s.now + 1 })

/-- Storage.ReturnClaimedInstance: un-claims a row under a fresh generated
id; errors unless exactly one row was affected (the update itself persists). -/
def returnClaimedInstance (s : Store) (id freshUuid : String) : (Except String Unit) × Store :=
  let hit := fun (r : ResourceRow) =>
    r.id == id && r.status == "available" && !r.deleted && r.claimed
  let count := (s.resources.filter hit).length
  let s' := { s with
    resources := s.resources.map (fun r =>
      if hit r then { r with claimed := false, id := freshUuid, updated := s.now } else r),
    now := s.now + 1 }
  if count == 1 then (.ok (), s')
  else (.error ("invalid count returned after trying to return unclaimed db " ++ id), s')

/-- Pending candidates of PopPendingTask: non-deleted pending tasks. -/
def pendingCandidates (s : Store) : List TaskRow :=
  s.tasks.filter (fun t => t.status == "pending" && !t.deleted)

/-- Selection of the oldest-updated row (order by updated asc limit 1). -/
def oldestOf : List TaskRow → Option TaskRow
  | [] => none
  | t :: ts =>
    match oldestOf ts with
    | none => some t
    | some b => if t.updated ≤ b.updated then some t else some b

/-- Storage.PopPendingTask: one transaction that selects the non-deleted
pending task with the oldest updated stamp, flips it to started and stamps
started=now (the update trigger also bumps updated); the sql sentinel when
no candidate exists. -/
def popPendingTask (s : Store) : (Except String TaskRow) × Store :=
  match oldestOf (pendingCandidates s) with
  | none => (.error "sql: no rows in result set", s)
  | some t0 =>
    let t := { t0 with status := "started", started := some s.now, updated := s.now }
    (.ok t,
     { s with
       tasks := s.tasks.map (fun u =>
         if u.task == t0.task then
           { u with status := "started", started := some s.now, updated := s.now }
         else u),
       now := s.now + 1 })

/-- Serializable part of an OSB plan as built by getPlans: the osb.Plan
basePlan with its Metadata map flattened into fields. The created_at and
updated_at entries come from variables the source never scans, so they are
the zero time for every row and are modelled as the constant 0. -/
structure OsbPlanModel where
  id : String
  name : String
  description : String
  free : Bool
  metaServiceId : String
  metaServiceName : String
  metaHumanName : String
  metaInstallInside : Bool
  metaInstallOutside : Bool
  metaKey : String
  metaPriceCents : Nat
  metaPriceUnit : String
  metaState : String
  metaAttributes : String
  metaEngineType : String
  metaEngineVersion : String
  metaCreatedAt : Nat := 0
  metaUpdatedAt : Nat := 0
deriving DecidableEq, Repr

/-- GetProvidersFromString from the source: the closed provider enum. -/
def GetProvidersFromString (str : String) : String :=
  if str == "aws-s3" then "aws-s3" else "unknown"

/-- ProviderPlan as built by getPlans. basePlan and providerPrivateDetails
carry a json:"-" tag in the source, so serializing a ProviderPlan itself
exposes only provider, id and scheme. -/
structure ProviderPlanModel where
  basePlan : OsbPlanModel
  provider : String
  providerPrivateDetails : String
  id : String
  scheme : String
deriving DecidableEq, Repr

/-- Conversion of one joined plans-services row into a ProviderPlan,
mirroring the loop body of getPlans; expandEnv models os.ExpandEnv. -/
def planRowToProviderPlan (expandEnv : String → String) (serviceName : String)
    (p : PlanRow) : ProviderPlanModel :=
  let state := if p.deprecated then "deprecated" else if p.beta then "beta" else "ga"
  { basePlan :=
      { id := p.plan
        name := p.name
        description := p.description
        free := p.costCents == 0
        metaServiceId := p.service
        metaServiceName := serviceName
        metaHumanName := p.humanName
        metaInstallInside := p.installInside
        metaInstallOutside := p.installOutside
        metaKey := serviceName ++ ":" ++ p.name
        metaPriceCents := p.costCents
        metaPriceUnit := p.costUnit
        metaState := state
        metaAttributes := p.attributes
        metaEngineType := p.engineType
        metaEngineVersion := p.version }
    provider := GetProvidersFromString p.provider
    providerPrivateDetails := expandEnv p.providerPrivateDetails
    id := p.plan
    scheme := p.scheme }

/-- Join condition of plansQuery: the plan is not deleted and its service
row exists and is not deleted; yields the service name of the join. -/
def planServiceName (s : Store) (p : PlanRow) : Option String :=
  if p.deleted then none
  else
    match s.services.find? (fun sv => sv.service == p.service && !sv.deleted) with
    | none => none
    | some sv => some sv.name

/-- Rows of plansQuery restricted by an extra predicate, converted. -/
def getPlansRows (expandEnv : String → String) (s : Store) (keep : PlanRow → Bool) :
    List ProviderPlanModel :=
  s.plans.filterMap (fun p =>
    if keep p then
      match planServiceName s p with
      | some svName => some (planRowToProviderPlan expandEnv svName p)
      | none => none
    else none)

/-- Storage.GetPlanByID: the Not found sentinel when the plan is absent. -/
def getPlanByID (expandEnv : String → String) (s : Store) (planId : String) :
    Except String ProviderPlanModel :=
  match getPlansRows expandEnv s (fun p => p.plan == planId) with
  | [] => .error "Not found"
  | p :: _ => .ok p

/-- Byte order on character lists: UTF-8 byte order coincides with code
point order, which this comparison implements. -/
def charListLe : List Char → List Char → Bool
  | [], _ => true
  | _ :: _, [] => false
  | a :: as, b :: bs =>
    if a.toNat < b.toNat then true
    else if b.toNat < a.toNat then false
    else charListLe as bs

/-- Byte order on strings, the order Go sorting uses. -/
def strLeB (a b : String) : Bool := charListLe a.data b.data

/-- Insertion into a list sorted by plan name (order by plans.name). -/
def insertByName (p : ProviderPlanModel) : List ProviderPlanModel → List ProviderPlanModel
  | [] => [p]
  | q :: qs =>
    if strLeB p.basePlan.name q.basePlan.name then p :: q :: qs
    else q :: insertByName p qs

/-- Sort by plan name (order by plans.name in GetPlans). -/
def sortByName : List ProviderPlanModel → List ProviderPlanModel
  | [] => []
  | p :: ps => insertByName p (sortByName ps)

/-- Storage.GetPlans: plans of one service, ordered by name. -/
def getPlans (expandEnv : String → String) (s : Store) (serviceId : String) :
    List ProviderPlanModel :=
  sortByName (getPlansRows expandEnv s (fun p => p.service == serviceId))

/-- Serializable OSB service of the catalog response: the osb.Service
fields built in GetServices, whose Plans carry only basePlan values. -/
structure OsbServiceModel where
  name : String
  id : String
  description : String
  tags : List String
  metaName : String
  metaImage : String
  plans : List OsbPlanModel
deriving DecidableEq, Repr

/-- Storage.GetServices: the full catalog as serialized over the OSB
boundary (every plan contributes only its basePlan). -/
def getServices (expandEnv : String → String) (s : Store) : List OsbServiceModel :=
  (s.services.filter (fun sv => !sv.deleted)).map (fun sv =>
    { name := sv.name
      id := sv.service
      description := sv.description
      tags := sv.categories.splitOn ","
      metaName := sv.humanName
      metaImage := sv.image
      plans := (getPlans expandEnv s sv.service).map (fun p => p.basePlan) })

/-- UTF-8 encoding of one character (byte values as Nat). -/
def utf8Char (c : Char) : List Nat :=
  let n := c.toNat
  if n < 128 then [n]
  else if n < 2048 then [192 + n / 64, 128 + n % 64]
  else if n < 65536 then [224 + n / 4096, 128 + (n / 64) % 64, 128 + n % 64]
  else [240 + n / 262144, 128 + (n / 4096) % 64, 128 + (n / 64) % 64, 128 + n % 64]

/-- UTF-8 bytes of a string, as Go []byte(s). -/
def strBytes (s : String) : List Nat :=
  (s.data.map utf8Char).flatten

/-- Alphabet of standard base64 (encoding/base64 StdEncoding). -/
def b64Char (n : Nat) : Char :=
  "ABCDEFGHIJKLMNOPQRSTUVWXYZabcdefghijklmnopqrstuvwxyz0123456789+/".data.getD n 'A'

/-- Base64 core: three input bytes become four alphabet characters, with
padding on a final partial group. -/
def b64Groups : List Nat → List Char
  | [] => []
  | [a] => [b64Char (a / 4), b64Char (a % 4 * 16), '=', '=']
  | [a, b] => [b64Char (a / 4), b64Char (a % 4 * 16 + b / 16), b64Char (b % 16 * 4), '=']
  | a :: b :: c :: rest =>
    b64Char (a / 4) :: b64Char (a % 4 * 16 + b / 16) ::
    b64Char (b % 16 * 4 + c / 64) :: b64Char (c % 64) :: b64Groups rest

/-- Base64 standard encoding of a byte list. -/
def base64Encode (bs : List Nat) : String :=
  String.mk (b64Groups bs)

/-- Truncation to a 32-bit word. -/
def w32 (n : Nat) : Nat := n % 4294967296

/-- Right rotation of a 32-bit word. -/
def rotr (k n : Nat) : Nat := w32 (n / 2 ^ k + n % 2 ^ k * 2 ^ (32 - k))

/-- Bitwise complement of a 32-bit word. -/
def bnot32 (n : Nat) : Nat := Nat.xor n 4294967295

/-- SHA-256 message schedule function sigma0. -/
def ssig0 (x : Nat) : Nat := Nat.xor (rotr 7 x) (Nat.xor (rotr 18 x) (x / 8))

/-- SHA-256 message schedule function sigma1. -/
def ssig1 (x : Nat) : Nat := Nat.xor (rotr 17 x) (Nat.xor (rotr 19 x) (x / 1024))

/-- SHA-256 compression function Sigma0. -/
def bsig0 (x : Nat) : Nat := Nat.xor (rotr 2 x) (Nat.xor (rotr 13 x) (rotr 22 x))

/-- SHA-256 compression function Sigma1. -/
def bsig1 (x : Nat) : Nat := Nat.xor (rotr 6 x) (Nat.xor (rotr 11 x) (rotr 25 x))

/-- SHA-256 choice function. -/
def chF (x y z : Nat) : Nat := Nat.xor (Nat.land x y) (Nat.land (bnot32 x) z)

/-- SHA-256 majority function. -/
def majF (x y z : Nat) : Nat :=
  Nat.xor (Nat.land x y) (Nat.xor (Nat.land x z) (Nat.land y z))

/-- SHA-256 round constants. -/
def sha256K : List Nat :=
  [1116352408, 1899447441, 3049323471, 3921009573, 961987163, 1508970993,
   2453635748, 2870763221, 3624381080, 310598401, 607225278, 1426881987,
   1925078388, 2162078206, 2614888103, 3248222580, 3835390401, 4022224774,
   264347078, 604807628, 770255983, 1249150122, 1555081692, 1996064986,
   2554220882, 2821834349, 2952996808, 3210313671, 3336571891, 3584528711,
   113926993, 338241895, 666307205, 773529912, 1294757372, 1396182291,
   1695183700, 1986661051, 2177026350, 2456956037, 2730485921, 2820302411,
   3259730800, 3345764771, 3516065817, 3600352804, 4094571909, 275423344,
   430227734, 506948616, 659060556, 883997877, 958139571, 1322822218,
   1537002063, 1747873779, 1955562222, 2024104815, 2227730452, 2361852424,
   2428436474, 2756734187, 3204031479, 3329325298]

/-- SHA-256 initial hash value. -/
def sha256H0 : List Nat :=
  [1779033703, 3144134277, 1013904242, 2773480762,
   1359893119, 2600822924, 528734635, 1541459225]

/-- Big-endian bytes of a 64-bit length field. -/
def be64 (n : Nat) : List Nat :=
  [n / 2 ^ 56 % 256, n / 2 ^ 48 % 256, n / 2 ^ 40 % 256, n / 2 ^ 32 % 256,
   n / 2 ^ 24 % 256, n / 2 ^ 16 % 256, n / 2 ^ 8 % 256, n % 256]

/-- SHA-256 padding: append 0x80, zeros to 56 mod 64, and the bit length. -/
def sha256Pad (msg : List Nat) : List Nat :=
  let r := (msg.length + 1) % 64
  let zeros := if r ≤ 56 then 56 - r else 120 - r
  msg ++ 128 :: List.replicate zeros 0 ++ be64 (msg.length * 8)

/-- Grouping of a byte list into 64-byte blocks. -/
def chunks64 (l : List Nat) : List (List Nat) :=
  if h : l = [] then []
  else l.take 64 :: chunks64 (l.drop 64)
termination_by l.length
decreasing_by
  simp only [List.length_drop]
  have hl : 0 < l.length := List.length_pos.mpr h
  omega

/-- Big-endian 32-bit words of a byte list. -/
def bytesToWords : List Nat → List Nat
  | a :: b :: c :: d :: rest => (((a * 256 + b) * 256 + c) * 256 + d) :: bytesToWords rest
  | _ => []

/-- Big-endian bytes of a word list. -/
def wordsToBytes : List Nat → List Nat
  | [] => []
  | w :: ws =>
    (w / 2 ^ 24 % 256) :: (w / 2 ^ 16 % 256) :: (w / 2 ^ 8 % 256) :: (w % 256) :: wordsToBytes ws

/-- Message schedule extension (48 further words). -/
def extendWords : Nat → Array Nat → Array Nat
  | 0, a => a
  | n + 1, a =>
    let i := a.size
    let v := w32 (ssig1 (a.getD (i - 2) 0) + a.getD (i - 7) 0 +
                  ssig0 (a.getD (i - 15) 0) + a.getD (i - 16) 0)
    extendWords n (a.push v)

/-- Working state of the SHA-256 compression function. -/
structure Sha8 where
  a : Nat
  b : Nat
  c : Nat
  d : Nat
  e : Nat
  f : Nat
  g : Nat
  h : Nat
deriving DecidableEq, Repr

/-- One round of the SHA-256 compression function. -/
def sha256Round (st : Sha8) (kw : Nat × Nat) : Sha8 :=
  let t1 := w32 (st.h + bsig1 st.e + chF st.e st.f st.g + kw.1 + kw.2)
  let t2 := w32 (bsig0 st.a + majF st.a st.b st.c)
  ⟨w32 (t1 + t2), st.a, st.b, st.c, w32 (st.d + t1), st.e, st.f, st.g⟩

/-- Compression of one 64-byte block. -/
def sha256Block (hs : Sha8) (block : List Nat) : Sha8 :=
  let ws := (extendWords 48 (bytesToWords block).toArray).toList
  let fin := (sha256K.zip ws).foldl sha256Round hs
  ⟨w32 (hs.a + fin.a), w32 (hs.b + fin.b), w32 (hs.c + fin.c), w32 (hs.d + fin.d),
   w32 (hs.e + fin.e), w32 (hs.f + fin.f), w32 (hs.g + fin.g), w32 (hs.h + fin.h)⟩

/-- SHA-256 digest of a byte list. -/
def sha256 (msg : List Nat) : List Nat :=
  let h0 : Sha8 := match sha256H0 with
    | [a, b, c, d, e, f, g, h] => ⟨a, b, c, d, e, f, g, h⟩
    | _ => ⟨0, 0, 0, 0, 0, 0, 0, 0⟩
  let hs := (chunks64 (sha256Pad msg)).foldl sha256Block h0
  wordsToBytes [hs.a, hs.b, hs.c, hs.d, hs.e, hs.f, hs.g, hs.h]

/-- HMAC-SHA256 as in crypto/hmac with a sha256 hash (block size 64). -/
def hmacSha256 (key msg : List Nat) : List Nat :=
  let k0 := if key.length > 64 then sha256 key else key
  let kp := k0 ++ List.replicate (64 - k0.length) 0
  let ipad := kp.map (fun b => Nat.xor b 54)
  let opad := kp.map (fun b => Nat.xor b 92)
  sha256 (opad ++ sha256 (ipad ++ msg))

/-- Characters that encoding/json writes back unchanged inside a string
literal (no quote, backslash, control character, or HTML-escaped rune). -/
def goJsonSafe (s : String) : Bool :=
  s.data.all (fun c =>
    c != '"' && c != '\\' && c != '<' && c != '>' && c != '&' &&
    31 < c.toNat && c.toNat != 8232 && c.toNat != 8233)

/-- Insertion into an association list sorted by key. -/
def insertKV (kv : String × String) : List (String × String) → List (String × String)
  | [] => [kv]
  | x :: xs => if strLeB kv.1 x.1 then kv :: x :: xs else x :: insertKV kv xs

/-- Sorting of an association list by key, as encoding/json sorts the keys
of a map before writing it. -/
def sortKV : List (String × String) → List (String × String)
  | [] => []
  | x :: xs => insertKV x (sortKV xs)

/-- Comma-joined members of a JSON object with plain string values. -/
def jsonMembers : List (String × String) → String
  | [] => ""
  | [kv] => "\"" ++ kv.1 ++ "\":\"" ++ kv.2 ++ "\""
  | kv :: rest => "\"" ++ kv.1 ++ "\":\"" ++ kv.2 ++ "\"," ++ jsonMembers rest

/-- Result of Go json.Marshal on a map from strings to strings whose keys
and values need no escaping: members in sorted key order. -/
def goMarshalStrMap (kvs : List (String × String)) : String :=
  "\x7b" ++ jsonMembers (sortKV kvs) ++ "\x7d"

/-- Body written by the notify-create-service-webhook branch: json.Marshal
of the map with entries state=succeeded and description=available. -/
def webhookBody : String :=
  goMarshalStrMap [("state", "succeeded"), ("description", "available")]

/-- Result of json.Marshal on WebhookTaskMetadata (fields url, secret in
declaration order) for values that need no escaping. -/
def marshalWebhookMeta (url secret : String) : String :=
  "\x7b\"url\":\"" ++ url ++ "\",\"secret\":\"" ++ secret ++ "\"\x7d"

/-- Result of json.Marshal on ChangePlansTaskMetadata (single field plan). -/
def marshalPlanMeta (plan : String) : String :=
  "\x7b\"plan\":\"" ++ plan ++ "\"\x7d"

/-- Literal matcher of the metadata decoders. -/
def dropLit : List Char → List Char → Option (List Char)
  | [], cs => some cs
  | _ :: _, [] => none
  | l :: ls, c :: cs => if c = l then dropLit ls cs else none

/-- String member scanner of the metadata decoders: characters up to the
closing quote. -/
def takeStr : List Char → Option (String × List Char)
  | [] => none
  | c :: cs =>
    if c = '"' then some ("", cs)
    else
      match takeStr cs with
      | some (s, rest) => some (String.mk (c :: s.data), rest)
      | none => none

/-- Decoder for json.Unmarshal into WebhookTaskMetadata, on the exact shape
this program writes (url then secret, unescaped values). -/
def parseWebhookMeta (m : String) : Option (String × String) :=
  match dropLit "\x7b\"url\":\"".data m.data with
  | none => none
  | some r1 =>
    match takeStr r1 with
    | none => none
    | some (u, r2) =>
      match dropLit ",\"secret\":\"".data r2 with
      | none => none
      | some r3 =>
        match takeStr r3 with
        | none => none
        | some (sec, r4) => if r4 = "\x7d".data then some (u, sec) else none

/-- Decoder for json.Unmarshal into ChangePlansTaskMetadata or
ChangeProvidersTaskMetadata (both have the single member plan). -/
def parsePlanMeta (m : String) : Option String :=
  match dropLit "\x7b\"plan\":\"".data m.data with
  | none => none
  | some r1 =>
    match takeStr r1 with
    | none => none
    | some (p, r2) => if r2 = "\x7d".data then some p else none

/-- Instance as moved between logic, storage and provider. The plan field
is always set on the paths modelled here. -/
structure InstanceM where
  id : String
  name : String
  providerId : String
  plan : ProviderPlanModel
  username : String
  password : String
  endpoint : String
  status : String
  ready : Bool
  engine : String
  engineVersion : String
  scheme : String
deriving DecidableEq, Repr

/-- Settings decoded from a plan's provider-private details. -/
structure S3Settings where
  versioned : Bool
  encrypted : Bool
  kmsKeyId : String
deriving DecidableEq, Repr

/-- IAM user as returned by CreateUser. -/
structure AwsUser where
  arn : String
  userName : String
  accessKeyId : String
  secretAccessKey : String
deriving DecidableEq, Repr

/-- Provider-interface calls traced by the logic model. -/
inductive ProvCall where
  | provisionCall (id planId owner : String)
  | deprovisionCall (name : String) (takeSnapshot : Bool)
  | getInstanceCall (name : String)
  | tagCall (name key value : String)
  | untagCall (name key : String)
deriving DecidableEq, Repr

/-- Environment of oracles for everything outside the store: AWS responses,
the json library on opaque blobs, environment variables, generated uuids,
HTTP, and injected storage-connection faults. -/
structure Env where
  expandEnv : String → String
  settingsOf : String → Except String S3Settings
  arnOf : String → Except String String
  uuidHead : String
  createUserRes : Except String AwsUser
  createBucketRes : Except String String
  tagResOf : String → Except String Unit
  bucketPolicyRes : Except String Unit
  userPolicyRes : Except String Unit
  attachRes : Except String Unit
  deprovisionRes : Except String Unit
  untagResOf : String → Except String Unit
  freshUuid : String
  region : String
  awsEnvOk : Bool
  addInstanceFault : Bool
  updateInstanceFault : Bool
  updateInstanceFault2 : Bool
  deleteInstanceFault : Bool
  newRequestFault : Bool
  httpRes : Except String Nat
  retryWebhooks : Bool
  popFault : Option String

/-- GetProviderByPlan: only the aws-s3 provider exists; its constructor
requires the AWS environment variables. -/
def getProviderByPlan (env : Env) (plan : ProviderPlanModel) : Except String Unit :=
  if plan.provider == "aws-s3" then
    if env.awsEnvOk then .ok ()
    else .error "Unable to find AWS_REGION environment variable."
  else .error "Unable to find provider for plan."

/-- Provider.GetInstance of the aws-s3 provider (uncached path): a policy
ARN lookup by name, then a fresh Instance that is always available and
ready, with blank id and credentials. -/
def awsGetInstance (env : Env) (name : String) (plan : ProviderPlanModel) :
    Except String InstanceM :=
  match env.arnOf name with
  | .error e => .error e
  | .ok arn =>
    .ok ⟨"", name, arn, plan, "", "", "", "available", true, "s3", "aws-1", "s3"⟩

/-- Provider.GetUrl of the aws-s3 provider: the credential map of a binding. -/
def getUrl (env : Env) (inst : InstanceM) : List (String × String) :=
  [("S3_BUCKET", inst.name), ("S3_LOCATION", inst.endpoint),
   ("S3_ACCESS_KEY", inst.username), ("S3_SECRET_KEY", inst.password),
   ("S3_REGION", env.region)]

/-- Provider.Provision of the aws-s3 provider: decode settings, generate
the namePre-u-uuid name, create the IAM user and the bucket, build the
Instance (always available and ready), then tag and attach policies. -/
def awsProvision (env : Env) (npfx : String) (id : String) (plan : ProviderPlanModel)
    (owner : String) : Except String InstanceM :=
  match env.settingsOf plan.providerPrivateDetails with
  | .error e => .error e
  | .ok _ =>
    let name := npfx ++ "-u" ++ env.uuidHead
    match env.createUserRes with
    | .error e => .error e
    | .ok user =>
      match env.createBucketRes with
      | .error e => .error e
      | .ok endpoint =>
        let inst : InstanceM :=
          ⟨id, name, user.arn, plan, user.accessKeyId, user.secretAccessKey, endpoint,
           "available", true, "s3", "aws-1", "s3"⟩
        match env.tagResOf "billingcode" with
        | .error e => .error e
        | .ok _ =>
          match env.bucketPolicyRes with
          | .error e => .error e
          | .ok _ =>
            match env.userPolicyRes with
            | .error e => .error e
            | .ok _ =>
              match env.attachRes with
              | .error e => .error e
              | .ok _ => .ok inst

/-- Provider.Modify of the aws-s3 provider: always rejected. -/
def awsModify : Except String InstanceM :=
  .error "S3 buckets cannot be modified, only created or destroyed."

/-- Error shapes surfaced to the OSB client. -/
inductive OsbErr where
  | notFound
  | conflict (msg : String)
  | unprocessable
  | unprocessableMsg (code msg : String)
  | internal
deriving DecidableEq, Repr

/-- GetInstanceById of logic.go: storage entry, plan, provider, live
provider instance, then merge of stored credentials into blank fields. -/
def getInstanceById (env : Env) (s : Store) (id : String) :
    (Except String InstanceM) × List ProvCall :=
  match getInstanceEntry s id with
  | .error e => (.error e, [])
  | .ok entry =>
    match getPlanByID env.expandEnv s entry.planId with
    | .error e => (.error e, [])
    | .ok plan =>
      match getProviderByPlan env plan with
      | .error e => (.error e, [])
      | .ok _ =>
        match awsGetInstance env entry.name plan with
        | .error e => (.error e, [.getInstanceCall entry.name])
        | .ok inst =>
          (.ok { inst with
              id := entry.id
              username := if inst.username == "" then entry.username else inst.username
              password := if inst.password == "" then entry.password else inst.password
              endpoint := if inst.endpoint == "" then entry.endpoint else inst.endpoint
              plan := plan },
           [.getInstanceCall entry.name])

/-- AddInstance as called by the logic, with an injected connection fault. -/
def addInstanceF (env : Env) (s : Store) (inst : InstanceM) : Except String Store :=
  if env.addInstanceFault then .error "pq: connection failure"
  else addInstance s inst.id inst.name inst.plan.id inst.status inst.username
        inst.password inst.endpoint

/-- BusinessLogic.GetUnclaimedInstance: the storage pool claim followed by a
live lookup of the claimed entry; when the lookup fails the claim is
returned to the pool and the lookup error (or the return error) surfaces. -/
def bGetUnclaimedInstance (env : Env) (s : Store) (planId instId : String) :
    (Except String InstanceM) × Store × List ProvCall :=
  match getUnclaimedInstance s planId instId with
  | (.error e, s') => (.error e, s', [])
  | (.ok entry, s1) =>
    match getInstanceById env s1 entry.id with
    | (.ok inst, calls) => (.ok inst, s1, calls)
    | (.error e, calls) =>
      match returnClaimedInstance s1 entry.id env.freshUuid with
      | (.error e2, s2) => (.error e2, s2, calls)
      | (.ok _, s2) => (.error e, s2, calls)

/-- Provision request fields the logic reads; the webhook and secret query
parameters are empty strings when absent, as url.Query().Get yields. -/
structure ProvisionRequest where
  instanceID : String
  planID : String
  acceptsIncomplete : Bool
  organizationGUID : String
  webhookParam : String
  secretParam : String
deriving DecidableEq, Repr

/-- Provision response fields the logic writes. -/
structure ProvisionResponse where
  exists_ : Bool
  async : Bool
  opKey : Option String
deriving DecidableEq, Repr

/-- Response assembly at the end of Provision: async is the negation of
Instance.Ready, and the operation key is set only in the async case. -/
def provisionResponse (req : ProvisionRequest) (ex : Bool) (inst : InstanceM) :
    ProvisionResponse :=
  if req.acceptsIncomplete && inst.ready == false then
    { exists_ := ex, async := !inst.ready, opKey := some req.instanceID }
  else
    { exists_ := ex, async := false, opKey := none }

/-- Fresh-bucket branch of Provision: provider lookup, Provider.Provision,
AddInstance with compensating Deprovision and delete-task enqueue on
failure, then post-provision and webhook task enqueues when not available. -/
def provisionFresh (env : Env) (npfx : String) (s : Store) (req : ProvisionRequest)
    (plan : ProviderPlanModel) (calls0 : List ProvCall) :
    (Except OsbErr ProvisionResponse) × Store × List ProvCall :=
  match getProviderByPlan env plan with
  | .error _ => (.error .internal, s, calls0)
  | .ok _ =>
    let calls1 := calls0 ++ [.provisionCall req.instanceID plan.id req.organizationGUID]
    match awsProvision env npfx req.instanceID plan req.organizationGUID with
    | .error _ => (.error .internal, s, calls1)
    | .ok inst =>
      match addInstanceF env s inst with
      | .error _ =>
        let calls2 := calls1 ++ [.deprovisionCall inst.name false]
        match env.deprovisionRes with
        | .ok _ => (.error .internal, s, calls2)
        | .error _ =>
          match addTask s inst.id "delete" inst.name with
          | .ok (_, s') => (.error .internal, s', calls2)
          | .error _ => (.error .internal, s, calls2)
      | .ok s2 =>
        if !(IsAvailable inst.status) then
          let s3 :=
            match addTask s2 inst.id "perform-post-provision" "" with
            | .ok (_, s') => s'
            | .error _ => s2
          let s4 :=
            if req.webhookParam != "" && req.secretParam != "" then
              match addTask s3 inst.id "notify-create-service-webhook"
                  (marshalWebhookMeta req.webhookParam req.secretParam) with
              | .ok (_, s') => s'
              | .error _ => s3
            else s3
          (.ok (provisionResponse req false inst), s4, calls1)
        else
          (.ok (provisionResponse req false inst), s2, calls1)

/-- BusinessLogic.Provision: guards, id-reuse validation, plan resolution,
idempotent lookup, pool claim, fresh provision, response assembly. Side
effects persist even when the handler returns an error, so the final store
accompanies every outcome. -/
def provision (env : Env) (npfx : String) (s0 : Store) (req : ProvisionRequest) :
    (Except OsbErr ProvisionResponse) × Store × List ProvCall :=
  if !req.acceptsIncomplete then
    (.error (.unprocessableMsg "AsyncRequired"
      "The query parameter accepts_incomplete=true MUST be included the request."), s0, [])
  else if req.instanceID == "" then
    (.error (.unprocessableMsg "InstanceRequired" "The instance ID was not provided."), s0, [])
  else
    match validateInstanceID s0 req.instanceID with
    | .error _ =>
      (.error (.unprocessableMsg "InstanceInvalid"
        "The instance ID was either already in-use or invalid."), s0, [])
    | .ok _ =>
      match getPlanByID env.expandEnv s0 req.planID with
      | .error _ => (.error .notFound, s0, [])
      | .ok plan =>
        match getInstanceById env s0 req.instanceID with
        | (.ok inst, calls) =>
          if inst.plan.id != req.planID then
            (.error (.conflict "InstanceID in use"), s0, calls)
          else
            (.ok (provisionResponse req true inst), s0, calls)
        | (.error e, calls) =>
          if e == "Cannot find resource instance" then
            match bGetUnclaimedInstance env s0 req.planID req.instanceID with
            | (.ok inst, s1, calls2) =>
              (.ok (provisionResponse req false inst), s1, calls ++ calls2)
            | (.error e2, s1, calls2) =>
              if e2 == "Cannot find resource instance" then
                provisionFresh env npfx s1 req plan (calls ++ calls2)
              else
                (.error .internal, s1, calls ++ calls2)
          else
            (.error .internal, s0, calls)

/-- Unbind response fields the logic writes. -/
structure UnbindResponse where
  async : Bool
deriving DecidableEq, Repr

/-- BusinessLogic.Unbind: instance lookup, readiness gate, then untagging
of Binding and App and a non-async empty response. -/
def unbind (env : Env) (s : Store) (instanceID : String) :
    (Except OsbErr UnbindResponse) × List ProvCall :=
  match getInstanceById env s instanceID with
  | (.error e, calls) =>
    if e == "Cannot find resource instance" then (.error .notFound, calls)
    else (.error .internal, calls)
  | (.ok inst, calls) =>
    if inst.ready == false then (.error .unprocessable, calls)
    else
      match getProviderByPlan env inst.plan with
      | .error _ => (.error .internal, calls)
      | .ok _ =>
        match env.untagResOf "Binding" with
        | .error _ => (.error .internal, calls ++ [.untagCall inst.name "Binding"])
        | .ok _ =>
          match env.untagResOf "App" with
          | .error _ =>
            (.error .internal,
             calls ++ [.untagCall inst.name "Binding", .untagCall inst.name "App"])
          | .ok _ =>
            (.ok ⟨false⟩,
             calls ++ [.untagCall inst.name "Binding", .untagCall inst.name "App"])

/-- Bind request fields the logic reads. -/
structure BindRequest where
  instanceID : String
  bindingID : String
  appGUID : Option String
deriving DecidableEq, Repr

/-- BusinessLogic.Bind: instance lookup, readiness gate, optional tagging
when an app GUID accompanies the request, then the credential map. -/
def bind (env : Env) (s : Store) (req : BindRequest) :
    (Except OsbErr (List (String × String))) × List ProvCall :=
  match getInstanceById env s req.instanceID with
  | (.error e, calls) =>
    if e == "Cannot find resource instance" then (.error .notFound, calls)
    else (.error .internal, calls)
  | (.ok inst, calls) =>
    if inst.ready == false then (.error .unprocessable, calls)
    else
      match getProviderByPlan env inst.plan with
      | .error _ => (.error .internal, calls)
      | .ok _ =>
        match req.appGUID with
        | some _ =>
          match env.tagResOf "Binding" with
          | .error _ => (.error .internal, calls ++ [.tagCall inst.name "Binding" req.bindingID])
          | .ok _ =>
            match env.tagResOf "App" with
            | .error _ =>
              (.error .internal,
               calls ++ [.tagCall inst.name "Binding" req.bindingID,
                         .tagCall inst.name "App" ((req.appGUID).getD "")])
            | .ok _ =>
              (.ok (getUrl env inst),
               calls ++ [.tagCall inst.name "Binding" req.bindingID,
                         .tagCall inst.name "App" ((req.appGUID).getD "")])
        | none => (.ok (getUrl env inst), calls)

/-- BusinessLogic.GetBinding: status gate through the CanGetBindings
vocabulary, then the credential map. -/
def getBinding (env : Env) (s : Store) (instanceID : String) :
    (Except OsbErr (List (String × String))) × List ProvCall :=
  match getInstanceById env s instanceID with
  | (.ok inst, calls) =>
    if !(CanGetBindings inst.status) then
      (.error (.unprocessableMsg "ServiceNotYetAvailable"
        "The service requested is not yet available."), calls)
    else
      match getProviderByPlan env inst.plan with
      | .error _ => (.error .internal, calls)
      | .ok _ => (.ok (getUrl env inst), calls)
  | (.error e, calls) =>
    if e == "Cannot find resource instance" then (.error .notFound, calls)
    else (.error .internal, calls)

/-- UpgradeAcrossProviders: a definite error, reserved functionality. -/
def upgradeAcrossProviders : Except String String :=
  .error "Memcached and redis instances cannot be upgraded across providers."

/-- UpgradeWithinProviders: plan resolution, provider resolution, same-plan
and cross-provider rejection, Provider.Modify (always rejected by the
aws-s3 provider, and not with the feature-unavailable sentinel, so the
escalation and the post-modify persistence are unreachable here). -/
def upgradeWithinProviders (env : Env) (s : Store) (fromDb : InstanceM) (toPlanId : String) :
    (Except String String) × Store :=
  match getPlanByID env.expandEnv s toPlanId with
  | .error e => (.error e, s)
  | .ok toPlan =>
    match getProviderByPlan env fromDb.plan with
    | .error e => (.error e, s)
    | .ok _ =>
      if toPlanId == fromDb.plan.id then
        (.error "Cannot upgrade to the same plan", s)
      else if toPlan.provider != fromDb.plan.provider then
        (.error "Unable to upgrade, different providers were passed in on both plans", s)
      else
        match awsModify with
        | .error e =>
          if e == "This feature is not available on this plan." then
            (upgradeAcrossProviders, s)
          else (.error e, s)
        | .ok inst =>
          if env.updateInstanceFault then (.error "pq: connection failure", s)
          else
            let s1 := updateInstance s inst.id inst.plan.id inst.endpoint inst.status
                        inst.username inst.password inst.name
            let s2 :=
              if !(IsAvailable inst.status) then
                match addTask s1 inst.id "resync-from-provider" "" with
                | .ok (_, s') => s'
                | .error _ => s1
              else s1
            (.ok "", s2)

/-- Outbound webhook request as handed to the HTTP client: target URL,
body bytes as a string, and the added headers. -/
structure WebhookPost where
  url : String
  body : String
  headers : List (String × String)
deriving DecidableEq, Repr

/-- Task-row write performed at the end of a dispatch path: FinishedTask
when setFinished, UpdateTaskStatus otherwise. -/
structure TaskWrite where
  retries : Nat
  result : String
  status : String
  setFinished : Bool
deriving DecidableEq, Repr

/-- Application of a dispatch path's task write to the store. -/
def applyTaskWrite (s : Store) (id : Nat) (w : TaskWrite) : Store :=
  if w.setFinished then finishedTask s id w.retries w.result w.status
  else updateTaskStatus s id w.retries w.result w.status

/-- Dispatch branch for the delete action (retry cap 10). -/
def dispatchDelete (env : Env) (s : Store) (t : TaskRow) :
    Store × Option TaskWrite × List WebhookPost :=
  if t.retries ≥ 10 then
    (s, some ⟨t.retries, "Unable to delete database " ++ t.resource ++
      " as it failed multiple times (" ++ t.result ++ ")", "failed", true⟩, [])
  else
    match (getInstanceById env s t.resource).1 with
    | .error e => (s, some ⟨t.retries + 1, "Cannot get Instance: " ++ e, "pending", false⟩, [])
    | .ok inst =>
      match getProviderByPlan env inst.plan with
      | .error e => (s, some ⟨t.retries + 1, "Cannot get provider: " ++ e, "pending", false⟩, [])
      | .ok _ =>
        match env.deprovisionRes with
        | .error e =>
          (s, some ⟨t.retries + 1, "Failed to deprovision: " ++ e, "pending", false⟩, [])
        | .ok _ =>
          if env.deleteInstanceFault then
            (s, some ⟨t.retries + 1, "Failed to delete: pq: connection failure",
              "pending", false⟩, [])
          else
            (deleteInstance s inst.id, some ⟨t.retries, "", "finished", true⟩, [])

/-- Dispatch branch for resync-from-provider (retry cap 60). -/
def dispatchResync (env : Env) (s : Store) (t : TaskRow) :
    Store × Option TaskWrite × List WebhookPost :=
  if t.retries ≥ 60 then
    (s, some ⟨t.retries, "Unable to resync information from provider for database " ++
      t.resource ++ " as it failed multiple times (" ++ t.result ++ ")", "failed", true⟩, [])
  else
    match (getInstanceById env s t.resource).1 with
    | .error e => (s, some ⟨t.retries + 1, "Cannot get Instance: " ++ e, "pending", false⟩, [])
    | .ok inst =>
      match getInstanceEntry s t.resource with
      | .error e => (s, some ⟨t.retries + 1, "Cannot get Entry: " ++ e, "pending", false⟩, [])
      | .ok entry =>
        if inst.status != entry.status then
          if env.updateInstanceFault then
            (s, some ⟨t.retries + 1, "Failed to update instance: pq: connection failure",
              "pending", false⟩, [])
          else
            (updateInstance s inst.id inst.plan.id inst.endpoint inst.status inst.username
               inst.password inst.name,
             some ⟨t.retries, "", "finished", true⟩, [])
        else
          (s, some ⟨t.retries + 1, "No change in status since last check", "pending", false⟩, [])

/-- Dispatch branch for resync-until-available (retry cap 60). -/
def dispatchResyncUntil (env : Env) (s : Store) (t : TaskRow) :
    Store × Option TaskWrite × List WebhookPost :=
  if t.retries ≥ 60 then
    (s, some ⟨t.retries, "Unable to resync information from provider for database " ++
      t.resource ++ " as it failed multiple times (" ++ t.result ++ ")", "failed", true⟩, [])
  else
    match (getInstanceById env s t.resource).1 with
    | .error e => (s, some ⟨t.retries + 1, "Cannot get Instance: " ++ e, "pending", false⟩, [])
    | .ok inst =>
      if env.updateInstanceFault then
        (s, some ⟨t.retries + 1, "Failed to update instance: pq: connection failure",
          "pending", false⟩, [])
      else
        let s1 := updateInstance s inst.id inst.plan.id inst.endpoint inst.status
                    inst.username inst.password inst.name
        if !(IsAvailable inst.status) then
          (s1, some ⟨t.retries + 1, "No change in status since last check (" ++
            inst.status ++ ")", "pending", false⟩, [])
        else
          (s1, some ⟨t.retries, "", "finished", true⟩, [])

/-- Dispatch branch for perform-post-provision (retry cap 60). The two
instance-fetch and provider-fetch failures write back the unchanged retries
counter; the aws-s3 PerformPostProvision returns its argument unchanged. -/
def dispatchPostProvision (env : Env) (s : Store) (t : TaskRow) :
    Store × Option TaskWrite × List WebhookPost :=
  if t.retries ≥ 60 then
    (s, some ⟨t.retries, "Unable to resync information from provider for database " ++
      t.resource ++ " as it failed multiple times (" ++ t.result ++ ")", "failed", true⟩, [])
  else
    match (getInstanceById env s t.resource).1 with
    | .error e => (s, some ⟨t.retries, "Cannot get Instance: " ++ e, "pending", false⟩, [])
    | .ok inst =>
      if env.updateInstanceFault then
        (s, some ⟨t.retries + 1, "Failed to update instance: pq: connection failure",
          "pending", false⟩, [])
      else
        let s1 := updateInstance s inst.id inst.plan.id inst.endpoint inst.status
                    inst.username inst.password inst.name
        if !(IsAvailable inst.status) then
          (s1, some ⟨t.retries + 1, "No change in status since last check (" ++
            inst.status ++ ")", "pending", false⟩, [])
        else
          match getProviderByPlan env inst.plan with
          | .error e => (s1, some ⟨t.retries, "Cannot get provider: " ++ e, "pending", false⟩, [])
          | .ok _ =>
            if env.updateInstanceFault2 then
              (s1, some ⟨t.retries + 1,
                "Failed to update instance after post provision: pq: connection failure",
                "pending", false⟩, [])
            else
              (updateInstance s1 inst.id inst.plan.id inst.endpoint inst.status inst.username
                 inst.password inst.name,
               some ⟨t.retries, "", "finished", true⟩, [])

/-- Dispatch branch for notify-create-service-webhook (retry cap 60). The
traced WebhookPost is the request handed to the HTTP client. When the
response status is outside 200..399 the behaviour depends on the
RETRY_WEBHOOKS toggle; with retries disabled the task is written failed
through UpdateTaskStatus, which never sets finished. -/
def dispatchWebhook (env : Env) (s : Store) (t : TaskRow) :
    Store × Option TaskWrite × List WebhookPost :=
  if t.retries ≥ 60 then
    (s, some ⟨t.retries, "Unable to deliver webhook: " ++ t.result, "failed", true⟩, [])
  else
    match (getInstanceById env s t.resource).1 with
    | .error e => (s, some ⟨t.retries + 1, "Cannot get Instance: " ++ e, "pending", false⟩, [])
    | .ok inst =>
      if !(IsAvailable inst.status) then
        (s, some ⟨t.retries + 1, "No change in status since last check", "pending", false⟩, [])
      else
        match parseWebhookMeta t.metadata with
        | none =>
          (s, some ⟨t.retries,
            "Cannot unmarshal task metadata to callback on create service: invalid character",
            "pending", false⟩, [])
        | some (url, secret) =>
          let sig := base64Encode (hmacSha256 (strBytes secret) (strBytes webhookBody))
          if env.newRequestFault then
            (s, some ⟨t.retries + 1, "Failed to create http post request: parse error",
              "pending", false⟩, [])
          else
            let post : WebhookPost :=
              ⟨url, webhookBody,
               [("content-type", "application/json"), ("x-osb-signature", sig)]⟩
            match env.httpRes with
            | .error e =>
              (s, some ⟨t.retries + 1, "Failed to send http post operation: " ++ e,
                "pending", false⟩, [post])
            | .ok code =>
              if env.retryWebhooks then
                if code < 200 || code > 399 then
                  (s, some ⟨t.retries + 1,
                    "Got invalid http status code from hook: " ++ toString code,
                    "pending", false⟩, [post])
                else
                  (s, some ⟨t.retries, toString code, "finished", true⟩, [post])
              else
                if code < 200 || code > 399 then
                  (s, some ⟨t.retries + 1,
                    "Got invalid http status code from hook: " ++ toString code,
                    "failed", false⟩, [post])
                else
                  (s, some ⟨t.retries, toString code, "finished", true⟩, [post])

/-- Dispatch branch for change-plans (retry cap 60). -/
def dispatchChangePlans (env : Env) (s : Store) (t : TaskRow) :
    Store × Option TaskWrite × List WebhookPost :=
  if t.retries ≥ 60 then
    (s, some ⟨t.retries, "Unable to change plans for database " ++ t.resource ++
      " as it failed multiple times (" ++ t.result ++ ")", "failed", true⟩, [])
  else
    match (getInstanceById env s t.resource).1 with
    | .error e => (s, some ⟨t.retries, "Cannot get Instance: " ++ e, "pending", false⟩, [])
    | .ok inst =>
      match parsePlanMeta t.metadata with
      | none =>
        (s, some ⟨t.retries + 1,
          "Cannot unmarshal task metadata to change providers: invalid character",
          "pending", false⟩, [])
      | some toPlan =>
        match upgradeWithinProviders env s inst toPlan with
        | (.error e, s1) =>
          (s1, some ⟨t.retries + 1, "Cannot change plans: " ++ e, "pending", false⟩, [])
        | (.ok out, s1) =>
          (s1, some ⟨t.retries, out, "finished", true⟩, [])

/-- Dispatch branch for change-providers (retry cap 60): no failure path of
this branch increments the retries counter. -/
def dispatchChangeProviders (env : Env) (s : Store) (t : TaskRow) :
    Store × Option TaskWrite × List WebhookPost :=
  if t.retries ≥ 60 then
    (s, some ⟨t.retries, "Unable to resync information from provider for database " ++
      t.resource ++ " as it failed multiple times (" ++ t.result ++ ")", "failed", true⟩, [])
  else
    match (getInstanceById env s t.resource).1 with
    | .error e => (s, some ⟨t.retries, "Cannot get Instance: " ++ e, "pending", false⟩, [])
    | .ok _ =>
      match parsePlanMeta t.metadata with
      | none =>
        (s, some ⟨t.retries,
          "Cannot unmarshal task metadata to change providers: invalid character",
          "pending", false⟩, [])
      | some _ =>
        match upgradeAcrossProviders with
        | .error e => (s, some ⟨t.retries, "Cannot switch providers: " ++ e, "pending", false⟩, [])
        | .ok out => (s, some ⟨t.retries, out, "finished", true⟩, [])

/-- Dispatch by action, then application of the path's task write. Actions
without a dispatcher branch (restore-database, notify-create-binding-webhook)
leave the task as popped. -/
def dispatchCore (env : Env) (s : Store) (t : TaskRow) :
    Store × Option TaskWrite × List WebhookPost :=
  if t.action == "delete" then dispatchDelete env s t
  else if t.action == "resync-from-provider" then dispatchResync env s t
  else if t.action == "resync-until-available" then dispatchResyncUntil env s t
  else if t.action == "perform-post-provision" then dispatchPostProvision env s t
  else if t.action == "notify-create-service-webhook" then dispatchWebhook env s t
  else if t.action == "change-plans" then dispatchChangePlans env s t
  else if t.action == "change-providers" then dispatchChangeProviders env s t
  else (s, none, [])

/-- Full handling of one popped task: dispatch, then the task write. -/
def dispatchTask (env : Env) (s : Store) (t : TaskRow) :
    Store × Option TaskWrite × List WebhookPost :=
  match dispatchCore env s t with
  | (s1, some w, posts) => (applyTaskWrite s1 t.task w, some w, posts)
  | (s1, none, posts) => (s1, none, posts)

/-- PopPendingTask as called by the worker, with an injected storage fault. -/
def popPendingTaskF (env : Env) (s : Store) : (Except String TaskRow) × Store :=
  match env.popFault with
  | some e => (.error e, s)
  | none => popPendingTask s

/-- Outcome of one worker loop iteration. -/
inductive WorkerStep where
  | idle
  | fatal (e : String)
  | ran (t : TaskRow)
deriving DecidableEq, Repr

/-- One iteration of RunWorkerTasks: pop, tolerate the empty sentinel,
abort the loop on any other pop failure, otherwise dispatch. -/
def workerIteration (env : Env) (s : Store) : Store × WorkerStep × List WebhookPost :=
  match popPendingTaskF env s with
  | (.error e, s') =>
    if e != "sql: no rows in result set" then (s', .fatal e, [])
    else (s', .idle, [])
  | (.ok t, s1) =>
    match dispatchTask env s1 t with
    | (s2, _, posts) => (s2, .ran t, posts)

/-- Lookup of a task row by id. -/
def findTask (s : Store) (id : Nat) : Option TaskRow :=
  s.tasks.find? (fun u => u.task == id)

/-- Untag calls of a provider-call trace. -/
def untagsOf (cs : List ProvCall) : List ProvCall :=
  cs.filter (fun c => match c with | .untagCall _ _ => true | _ => false)

theorem find?_map_of_pres {α : Type} (l : List α) (q : α → Bool) (f : α → α)
    (hf : ∀ a, q (f a) = q a) : (l.map f).find? q = (l.find? q).map f := by
  induction l with
  | nil => rfl
  | cons a l ih =>
    by_cases h : q a = true
    · simp [List.find?, hf, h]
    · simp only [Bool.not_eq_true] at h
      simp [List.find?, hf, h, ih]

theorem tasksUnique_tail {a : TaskRow} {l : List TaskRow}
    (h : tasksUnique (a :: l) = true) :
    (l.any (fun u => u.task == a.task)) = false ∧ tasksUnique l = true := by
  rw [tasksUnique] at h
  simpa using h

theorem find?_eq_of_tasksUnique {l : List TaskRow} (h : tasksUnique l = true)
    {t : TaskRow} (hm : t ∈ l) : l.find? (fun u => u.task == t.task) = some t := by
  induction l with
  | nil => cases hm
  | cons a l ih =>
    obtain ⟨hnone, hl⟩ := tasksUnique_tail h
    rcases List.mem_cons.mp hm with rfl | hm2
    · simp [List.find?]
    · have hne : a.task ≠ t.task := by
        intro he
        have : l.any (fun u => u.task == a.task) = true :=
          List.any_eq_true.mpr ⟨t, hm2, by simp [he]⟩
        simp [this] at hnone
      have hbeq : (a.task == t.task) = false := by simpa using hne
      simp [List.find?, hbeq, ih hl hm2]

theorem eq_of_resourcesUnique {l : List ResourceRow} (h : resourcesUnique l = true)
    {a b : ResourceRow} (ha : a ∈ l) (hb : b ∈ l) (hid : a.id = b.id) : a = b := by
  induction l with
  | nil => cases ha
  | cons x xs ih =>
    rw [resourcesUnique] at h
    have h' := (Bool.and_eq_true _ _).mp h
    have hnone : ∀ u ∈ xs, u.id ≠ x.id := by
      intro u hu he
      have : xs.any (fun v => v.id == x.id) = true := List.any_eq_true.mpr ⟨u, hu, by simp [he]⟩
      simp [this] at h'
    rcases List.mem_cons.mp ha with rfl | ha2 <;> rcases List.mem_cons.mp hb with rfl | hb2
    · rfl
    · exact absurd hid.symm (hnone b hb2)
    · exact absurd hid (hnone a ha2)
    · exact ih h'.2 ha2 hb2

theorem oldestOf_eq_none {l : List TaskRow} : oldestOf l = none ↔ l = [] := by
  cases l with
  | nil => simp [oldestOf]
  | cons a l =>
    rw [oldestOf]
    cases oldestOf l with
    | none => simp
    | some b => by_cases hc : a.updated ≤ b.updated <;> simp [hc]

theorem oldestOf_mem {l : List TaskRow} {t : TaskRow} (h : oldestOf l = some t) : t ∈ l := by
  induction l generalizing t with
  | nil => simp [oldestOf] at h
  | cons a l ih =>
    rw [oldestOf] at h
    cases ho : oldestOf l with
    | none => rw [ho] at h; simp at h; simp [h]
    | some b =>
      rw [ho] at h
      by_cases hc : a.updated ≤ b.updated
      · simp [hc] at h; simp [h]
      · simp [hc] at h
        exact List.mem_cons_of_mem _ (ih (h ▸ ho))

theorem oldestOf_min {l : List TaskRow} {t : TaskRow} (h : oldestOf l = some t) :
    ∀ u ∈ l, t.updated ≤ u.updated := by
  induction l generalizing t with
  | nil => simp [oldestOf] at h
  | cons a l ih =>
    intro u hu
    rw [oldestOf] at h
    cases ho : oldestOf l with
    | none =>
      rw [ho] at h
      simp at h
      have hl : l = [] := oldestOf_eq_none.mp ho
      subst hl
      rcases List.mem_cons.mp hu with rfl | hu2
      · simp [h]
      · cases hu2
    | some b =>
      rw [ho] at h
      have hbmin := ih ho
      rcases List.mem_cons.mp hu with rfl | hu2
      · by_cases hc : u.updated ≤ b.updated
        · simp [hc] at h; simp [← h]
        · simp [hc] at h
          rw [← h]
          omega
      · by_cases hc : a.updated ≤ b.updated
        · simp [hc] at h
          have := hbmin u hu2
          rw [← h]
          omega
        · simp [hc] at h
          rw [← h]
          exact hbmin u hu2

theorem oldestOf_none {l : List TaskRow} (h : l = []) : oldestOf l = none := by
  subst h; rfl

theorem popPendingTask_ok {s : Store} {t : TaskRow} {s' : Store}
    (h : popPendingTask s = (.ok t, s')) :
    ∃ t0, oldestOf (pendingCandidates s) = some t0 ∧
      t = { t0 with status := "started", started := some s.now, updated := s.now } ∧
      s' = { s with
        tasks := s.tasks.map (fun u =>
          if u.task == t0.task then
            { u with status := "started", started := some s.now, updated := s.now }
          else u),
        now := s.now + 1 } := by
  rw [popPendingTask] at h
  cases ho : oldestOf (pendingCandidates s) with
  | none => rw [ho] at h; simp at h
  | some t0 =>
    rw [ho] at h
    rw [Prod.mk.injEq] at h
    obtain ⟨h1, h2⟩ := h
    simp only [Except.ok.injEq] at h1
    exact ⟨t0, rfl, h1.symm, h2.symm⟩

/-- C8: PopPendingTask atomically selects the non-deleted pending task with
the oldest updated stamp, flips it to started with started=now in one
transaction; an empty queue yields the sql sentinel with the store
untouched, which the worker loop tolerates by idling, while any other pop
failure aborts the loop. -/
theorem c8_pop_pending_task (env : Env) (s : Store) :
    (∀ t s', env.popFault = none → popPendingTaskF env s = (.ok t, s') →
      ∃ t0 ∈ s.tasks, t0.status = "pending" ∧ t0.deleted = false ∧
        (∀ u ∈ s.tasks, u.status = "pending" → u.deleted = false → t0.updated ≤ u.updated) ∧
        t = { t0 with status := "started", started := some s.now, updated := s.now } ∧
        s' = { s with
          tasks := s.tasks.map (fun u =>
            if u.task == t0.task then
              { u with status := "started", started := some s.now, updated := s.now }
            else u),
          now := s.now + 1 }) ∧
    (env.popFault = none → (∀ u ∈ s.tasks, u.status = "pending" → u.deleted = true) →
      popPendingTaskF env s = (.error "sql: no rows in result set", s) ∧
      workerIteration env s = (s, .idle, [])) ∧
    (∀ e, env.popFault = some e → e ≠ "sql: no rows in result set" →
      workerIteration env s = (s, .fatal e, [])) := by
  refine ⟨?_, ?_, ?_⟩
  · intro t s' hf h
    rw [popPendingTaskF, hf] at h
    obtain ⟨t0, ho, ht, hs⟩ := popPendingTask_ok h
    have hmem := oldestOf_mem ho
    have hmin := oldestOf_min ho
    rw [pendingCandidates] at hmem hmin
    have hmem' := List.mem_filter.mp hmem
    have hp : t0.status = "pending" ∧ t0.deleted = false := by
      have := hmem'.2; simp at this; exact this
    refine ⟨t0, hmem'.1, hp.1, hp.2, ?_, ht, hs⟩
    intro u hu hus hud
    exact hmin u (List.mem_filter.mpr ⟨hu, by simp [hus, hud]⟩)
  · intro hf hempty
    have hnil : pendingCandidates s = [] := by
      rw [pendingCandidates, List.filter_eq_nil]
      intro u hu
      by_cases h1 : u.status = "pending"
      · have := hempty u hu h1; simp [this]
      · simp [h1]
    constructor
    · rw [popPendingTaskF, hf, popPendingTask, hnil]; rfl
    · rw [workerIteration, popPendingTaskF, hf, popPendingTask, hnil]; rfl
  · intro e hf hne
    rw [workerIteration, popPendingTaskF, hf]
    simp [hne]

/-- C2: a committing pool claim had a pooled row with claimed=false,
status=available, deleted=false, the requested plan and a different id;
afterwards exactly one row carries the new id, claimed and copying the
pooled row's name, plan, status, credentials and endpoint; every
non-deleted task referencing the pooled id references the new id; the
pooled row is gone. Without a candidate the call fails with the not-found
sentinel and the store is unchanged. -/
theorem c2_pool_claim (s : Store) (planId newId : String)
    (hres : resourcesUnique s.resources = true) :
    (∀ e s', getUnclaimedInstance s planId newId = (.ok e, s') →
      ∃ row ∈ s.resources,
        row.claimed = false ∧ row.status = "available" ∧ row.deleted = false ∧
        row.planId = planId ∧ row.id ≠ newId ∧
        (s'.resources.filter (fun r => r.id == newId)).length = 1 ∧
        (∀ r ∈ s'.resources, r.id = newId →
          r.claimed = true ∧ r.name = row.name ∧ r.planId = row.planId ∧
          r.status = row.status ∧ r.username = row.username ∧
          r.password = row.password ∧ r.endpoint = row.endpoint) ∧
        (∀ t ∈ s.tasks, t.deleted = false → t.resource = row.id →
          ∃ t' ∈ s'.tasks, t'.task = t.task ∧ t'.resource = newId) ∧
        (∀ r ∈ s'.resources, r.id ≠ row.id)) ∧
    (poolCandidate s planId newId = none →
      getUnclaimedInstance s planId newId = (.error "Cannot find resource instance", s)) := by
  constructor
  · intro e s' h
    rw [getUnclaimedInstance] at h
    cases hc : poolCandidate s planId newId with
    | none => rw [hc] at h; simp at h
    | some row =>
      rw [hc] at h
      cases hany : s.resources.any (fun r => r.id == newId) with
      | true => rw [hany] at h; simp at h
      | false =>
        rw [hany] at h
        simp only [Bool.false_eq_true, if_false] at h
        rw [Prod.mk.injEq] at h
        obtain ⟨h1, h2⟩ := h
        have hmem := List.mem_of_find?_eq_some hc
        have hpred := List.find?_some hc
        have hfresh : ∀ r ∈ s.resources, ¬(r.id = newId) := by
          intro r hr he
          have : s.resources.any (fun r => r.id == newId) = true :=
            List.any_eq_true.mpr ⟨r, hr, by simp [he]⟩
          rw [this] at hany; cases hany
        simp only [Bool.and_eq_true, Bool.not_eq_true', beq_iff_eq, bne_iff_ne, ne_eq] at hpred
        obtain ⟨⟨⟨⟨hcl, hst⟩, hdel⟩, hid⟩, hplan⟩ := hpred
        subst h2
        refine ⟨row, hmem, hcl, hst, hdel, hplan, hid, ?_, ?_, ?_, ?_⟩
        · -- exactly one row with the new id
          have hleft :
              (s.resources.filter (fun r =>
                !(r.id == row.id && !r.deleted && !r.claimed))).filter
                  (fun r => r.id == newId) = [] := by
            rw [List.filter_eq_nil]
            intro r hr
            have hr2 := (List.mem_filter.mp hr).1
            simp [hfresh r hr2]
          simp only [List.filter_append, hleft]
          simp
        · -- every row with the new id copies the pooled row
          intro r hr hrid
          have hr1 := List.mem_filter.mp hr
          rcases List.mem_append.mp hr1.1 with hrs | hrn
          · exact absurd hrid (hfresh r hrs)
          · have : r = ⟨newId, row.name, row.planId, true, row.status, row.username,
                row.password, row.endpoint, s.now, false⟩ := by simpa using hrn
            subst this
            exact ⟨rfl, rfl, rfl, rfl, rfl, rfl, rfl⟩
        · -- non-deleted tasks are reparented
          intro t ht htd htr
          refine ⟨{ t with resource := newId, updated := s.now }, ?_, rfl, rfl⟩
          have : (fun u : TaskRow =>
              if u.resource == row.id && !u.deleted then
                { u with resource := newId, updated := s.now }
              else u) t = { t with resource := newId, updated := s.now } := by
            simp [htr, htd]
          rw [← this]
          exact List.mem_map_of_mem _ ht
        · -- the pooled row is gone
          intro r hr he
          have hr1 := List.mem_filter.mp hr
          rcases List.mem_append.mp hr1.1 with hrs | hrn
          · have : r = row := eq_of_resourcesUnique hres hrs hmem he
            subst this
            have := hr1.2
            simp [he, hdel, hcl] at this
          · have : r = ⟨newId, row.name, row.planId, true, row.status, row.username,
                row.password, row.endpoint, s.now, false⟩ := by simpa using hrn
            subst this
            exact hid (by simpa using he.symm)
  · intro hc
    rw [getUnclaimedInstance, hc]

theorem untagsOf_append (a b : List ProvCall) :
    untagsOf (a ++ b) = untagsOf a ++ untagsOf b := by
  rw [untagsOf, untagsOf, untagsOf, List.filter_append]

theorem untagsOf_getInstanceById (env : Env) (s : Store) (id : String) :
    untagsOf (getInstanceById env s id).2 = [] := by
  rw [getInstanceById]
  cases h1 : getInstanceEntry s id with
  | error e => simp [untagsOf]
  | ok entry =>
    cases h2 : getPlanByID env.expandEnv s entry.planId with
    | error e => simp [h2, untagsOf]
    | ok plan =>
      cases h3 : getProviderByPlan env plan with
      | error e => simp [h2, h3, untagsOf]
      | ok u =>
        cases h4 : awsGetInstance env entry.name plan with
        | error e => simp [h2, h3, h4, untagsOf]
        | ok inst => simp [h2, h3, h4, untagsOf]

/-- C10: when the instance exists but is not Ready, Unbind answers with the
unprocessable-entity error and performs no Untag call; the untagging of
Binding and App and the non-async empty response occur exactly on the
success path, which requires a Ready instance. -/
theorem c10_unbind_ready_gate (env : Env) (s : Store) (instanceID : String) (inst : InstanceM)
    (h : (getInstanceById env s instanceID).1 = .ok inst) :
    (inst.ready = false →
      (unbind env s instanceID).1 = .error .unprocessable ∧
      untagsOf (unbind env s instanceID).2 = []) ∧
    (∀ resp, (unbind env s instanceID).1 = .ok resp →
      inst.ready = true ∧ resp.async = false ∧
      untagsOf (unbind env s instanceID).2 =
        [.untagCall inst.name "Binding", .untagCall inst.name "App"]) := by
  have htr := untagsOf_getInstanceById env s instanceID
  rcases hgi : getInstanceById env s instanceID with ⟨r, calls⟩
  rw [hgi] at h htr
  simp only at h htr
  subst h
  constructor
  · intro hready
    have hred : unbind env s instanceID = (.error .unprocessable, calls) := by
      rw [unbind, hgi]
      simp [hready]
    rw [hred]
    exact ⟨rfl, htr⟩
  · intro resp hresp
    rw [unbind, hgi] at hresp
    simp only [] at hresp
    by_cases hready : inst.ready = false
    · simp [hready] at hresp
    · have hready' : inst.ready = true := by
        cases hb : inst.ready
        · exact absurd hb hready
        · rfl
      cases h3 : getProviderByPlan env inst.plan with
      | error e => simp [hready', h3] at hresp
      | ok u =>
        cases h4 : env.untagResOf "Binding" with
        | error e => simp [hready', h3, h4] at hresp
        | ok u1 =>
          cases h5 : env.untagResOf "App" with
          | error e => simp [hready', h3, h4, h5] at hresp
          | ok u2 =>
            simp [hready', h3, h4, h5] at hresp
            subst hresp
            refine ⟨hready', rfl, ?_⟩
            have hred : unbind env s instanceID =
                (.ok ⟨false⟩,
                 calls ++ [.untagCall inst.name "Binding", .untagCall inst.name "App"]) := by
              rw [unbind, hgi]
              simp [hready', h3, h4, h5]
            rw [hred]
            rw [untagsOf_append, htr]
            simp [untagsOf]

theorem dropLit_append (l r : List Char) : dropLit l (l ++ r) = some r := by
  induction l with
  | nil => rfl
  | cons c cs ih => simp [dropLit, ih]

theorem takeStr_append (cs : List Char) (h : ∀ c ∈ cs, c ≠ '"') (rest : List Char) :
    takeStr (cs ++ '"' :: rest) = some (String.mk cs, rest) := by
  induction cs with
  | nil => simp [takeStr]
  | cons c cs ih =>
    have hc : c ≠ '"' := h c (List.mem_cons_self c cs)
    have ih' := ih (fun x hx => h x (List.mem_cons_of_mem _ hx))
    simp [takeStr, hc, ih']

theorem data_eq_of_str (a : String) : (String.mk a.data) = a := rfl

theorem parseWebhookMeta_roundtrip (u sec : String)
    (hu : ∀ c ∈ u.data, c ≠ '"') (hs : ∀ c ∈ sec.data, c ≠ '"') :
    parseWebhookMeta (marshalWebhookMeta u sec) = some (u, sec) := by
  have hdata : (marshalWebhookMeta u sec).data =
      ("\x7b\"url\":\"" : String).data ++
        (u.data ++ ('"' :: ((",\"secret\":\"" : String).data ++
          (sec.data ++ ('"' :: ("\x7d" : String).data))))) := by
    show ((("\x7b\"url\":\"" : String) ++ u ++ "\",\"secret\":\"" ++ sec ++ "\"\x7d").data) = _
    change ("\x7b\"url\":\"" : String).data ++ u.data ++
      ("\",\"secret\":\"" : String).data ++ sec.data ++ ("\"\x7d" : String).data = _
    simp [List.append_assoc]
  rw [parseWebhookMeta, hdata]
  simp only [dropLit_append, takeStr_append u.data hu, takeStr_append sec.data hs]
  simp [data_eq_of_str]

/-- The x-osb-signature verification a webhook receiver performs with the
declared secret: recompute base64(HMAC-SHA256(secret, body)) and compare. -/
def verifyOsbSignature (secret : String) (p : WebhookPost) : Bool :=
  (p.headers.lookup "x-osb-signature") ==
    some (base64Encode (hmacSha256 (strBytes secret) (strBytes p.body)))

theorem goJsonSafe_no_quote {s : String} (h : goJsonSafe s = true) :
    ∀ c ∈ s.data, c ≠ '"' := by
  rw [goJsonSafe, List.all_eq_true] at h
  intro c hc he
  have := h c hc
  rw [he] at this
  simp at this

theorem webhookBody_eq :
    webhookBody = "\x7b\"description\":\"available\",\"state\":\"succeeded\"\x7d" := by
  rfl

/-- C4 counterexample: the webhook body is not byte-identical to the JSON
literal of the claim, because json.Marshal writes map keys sorted. -/
theorem c4_webhook_body_not_claimed_literal :
    webhookBody ≠ "\x7b\"state\":\"succeeded\",\"description\":\"available\"\x7d" := by
  rw [webhookBody_eq]
  decide

theorem dispatchDelete_posts (env : Env) (s : Store) (t : TaskRow) :
    (dispatchDelete env s t).2.2 = [] := by
  rw [dispatchDelete]
  repeat' split
  all_goals rfl

theorem dispatchResync_posts (env : Env) (s : Store) (t : TaskRow) :
    (dispatchResync env s t).2.2 = [] := by
  rw [dispatchResync]
  repeat' split
  all_goals rfl

theorem dispatchResyncUntil_posts (env : Env) (s : Store) (t : TaskRow) :
    (dispatchResyncUntil env s t).2.2 = [] := by
  rw [dispatchResyncUntil]
  repeat' split
  all_goals rfl

theorem dispatchPostProvision_posts (env : Env) (s : Store) (t : TaskRow) :
    (dispatchPostProvision env s t).2.2 = [] := by
  rw [dispatchPostProvision]
  repeat' split
  all_goals rfl

theorem dispatchChangePlans_posts (env : Env) (s : Store) (t : TaskRow) :
    (dispatchChangePlans env s t).2.2 = [] := by
  rw [dispatchChangePlans]
  repeat' split
  all_goals rfl

theorem dispatchChangeProviders_posts (env : Env) (s : Store) (t : TaskRow) :
    (dispatchChangeProviders env s t).2.2 = [] := by
  rw [dispatchChangeProviders]
  repeat' split
  all_goals rfl

theorem dispatchWebhook_posts (env : Env) (s : Store) (t : TaskRow) (url secret : String)
    (hparse : parseWebhookMeta t.metadata = some (url, secret)) :
    ∀ post ∈ (dispatchWebhook env s t).2.2,
      post = ⟨url, webhookBody,
        [("content-type", "application/json"),
         ("x-osb-signature",
          base64Encode (hmacSha256 (strBytes secret) (strBytes webhookBody)))]⟩ := by
  intro post hpost
  rw [dispatchWebhook] at hpost
  split at hpost
  · simp at hpost
  · split at hpost
    · simp at hpost
    · split at hpost
      · simp at hpost
      · split at hpost
        · simp at hpost
        · rename_i u' sec' heq
          rw [hparse] at heq
          simp only [Option.some.injEq, Prod.mk.injEq] at heq
          obtain ⟨hu', hs'⟩ := heq
          subst hu'
          subst hs'
          split at hpost
          · simp at hpost
          · split at hpost
            · simp at hpost
              simp [hpost]
            · split at hpost
              · split at hpost <;> simp at hpost <;> simp [hpost]
              · split at hpost <;> simp at hpost <;> simp [hpost]

theorem dispatchTask_posts_eq (env : Env) (s : Store) (t : TaskRow) :
    (dispatchTask env s t).2.2 = (dispatchCore env s t).2.2 := by
  rw [dispatchTask]
  rcases dispatchCore env s t with ⟨s1, w, posts⟩
  cases w <;> rfl

theorem dispatchCore_posts_shape (env : Env) (s : Store) (t : TaskRow) (url secret : String)
    (hparse : parseWebhookMeta t.metadata = some (url, secret)) :
    ∀ post ∈ (dispatchCore env s t).2.2,
      post = ⟨url, webhookBody,
        [("content-type", "application/json"),
         ("x-osb-signature",
          base64Encode (hmacSha256 (strBytes secret) (strBytes webhookBody)))]⟩ := by
  intro post hpost
  rw [dispatchCore] at hpost
  split at hpost
  · rw [dispatchDelete_posts] at hpost; cases hpost
  · split at hpost
    · rw [dispatchResync_posts] at hpost; cases hpost
    · split at hpost
      · rw [dispatchResyncUntil_posts] at hpost; cases hpost
      · split at hpost
        · rw [dispatchPostProvision_posts] at hpost; cases hpost
        · split at hpost
          · exact dispatchWebhook_posts env s t url secret hparse post hpost
          · split at hpost
            · rw [dispatchChangePlans_posts] at hpost; cases hpost
            · split at hpost
              · rw [dispatchChangeProviders_posts] at hpost; cases hpost
              · cases hpost

/-- C4 amended: every webhook POST the notify-create-service-webhook branch
hands to the HTTP client for a task whose metadata carries the url and
secret of the provision request has body byte-identical to the key-sorted
literal, a content-type header of application/json, and an x-osb-signature
header of base64(HMAC-SHA256(secret, body)) that verifies against that
secret. -/
theorem c4_webhook_post_shape (env : Env) (s : Store) (t : TaskRow) (url secret : String)
    (hmeta : t.metadata = marshalWebhookMeta url secret)
    (hu : goJsonSafe url = true) (hsec : goJsonSafe secret = true) :
    ∀ post ∈ (dispatchTask env s t).2.2,
      post.body = webhookBody ∧
      post.body = "\x7b\"description\":\"available\",\"state\":\"succeeded\"\x7d" ∧
      post.url = url ∧
      post.headers =
        [("content-type", "application/json"),
         ("x-osb-signature",
          base64Encode (hmacSha256 (strBytes secret) (strBytes post.body)))] ∧
      verifyOsbSignature secret post = true := by
  have hparse : parseWebhookMeta t.metadata = some (url, secret) := by
    rw [hmeta]
    exact parseWebhookMeta_roundtrip url secret
      (goJsonSafe_no_quote hu) (goJsonSafe_no_quote hsec)
  intro post hpost
  rw [dispatchTask_posts_eq] at hpost
  have hp := dispatchCore_posts_shape env s t url secret hparse post hpost
  subst hp
  refine ⟨rfl, webhookBody_eq, rfl, rfl, ?_⟩
  rw [verifyOsbSignature]
  simp [List.lookup]

/-- Erasure of a plan row's provider-private details. -/
def scrubPlanRow (p : PlanRow) : PlanRow := { p with providerPrivateDetails := "" }

/-- Erasure of every plan's provider-private details in the store. -/
def scrubStore (s : Store) : Store := { s with plans := s.plans.map scrubPlanRow }

/-- Erasure of the private details of a loaded ProviderPlan. -/
def scrubPP (exp : String → String) (p : ProviderPlanModel) : ProviderPlanModel :=
  { p with providerPrivateDetails := exp "" }

/-- Erasure of the private details of an Instance's plan. -/
def scrubInst (exp : String → String) (i : InstanceM) : InstanceM :=
  { i with plan := scrubPP exp i.plan }

theorem planServiceName_scrub (s : Store) (p : PlanRow) :
    planServiceName (scrubStore s) (scrubPlanRow p) = planServiceName s p := rfl

theorem planRowToProviderPlan_scrub (exp : String → String) (sv : String) (p : PlanRow) :
    planRowToProviderPlan exp sv (scrubPlanRow p) =
      scrubPP exp (planRowToProviderPlan exp sv p) := rfl

theorem getPlansRows_scrub (exp : String → String) (s : Store) (keep : PlanRow → Bool)
    (hkeep : ∀ p, keep (scrubPlanRow p) = keep p) :
    getPlansRows exp (scrubStore s) keep = (getPlansRows exp s keep).map (scrubPP exp) := by
  rw [getPlansRows, getPlansRows]
  show (s.plans.map scrubPlanRow).filterMap _ = _
  rw [List.filterMap_map, List.map_filterMap]
  apply List.filterMap_congr
  intro p _
  show (if keep (scrubPlanRow p) then _ else none) = _
  rw [hkeep]
  by_cases hk : keep p = true
  · rw [if_pos hk, if_pos hk, planServiceName_scrub]
    cases planServiceName s p with
    | none => rfl
    | some sv => simp [planRowToProviderPlan_scrub]
  · rw [if_neg hk, if_neg hk]
    rfl

theorem getPlanByID_scrub (exp : String → String) (s : Store) (pid : String) :
    getPlanByID exp (scrubStore s) pid = (getPlanByID exp s pid).map (scrubPP exp) := by
  rw [getPlanByID, getPlanByID,
    getPlansRows_scrub exp s (fun p => p.plan == pid) (fun p => rfl)]
  cases getPlansRows exp s (fun p => p.plan == pid) with
  | nil => rfl
  | cons p ps => rfl

theorem insertByName_scrub (exp : String → String) (p : ProviderPlanModel)
    (l : List ProviderPlanModel) :
    insertByName (scrubPP exp p) (l.map (scrubPP exp)) = (insertByName p l).map (scrubPP exp) := by
  induction l with
  | nil => rfl
  | cons q qs ih =>
    show insertByName _ (scrubPP exp q :: qs.map (scrubPP exp)) = _
    rw [insertByName, insertByName]
    have hn1 : (scrubPP exp p).basePlan.name = p.basePlan.name := rfl
    have hn2 : (scrubPP exp q).basePlan.name = q.basePlan.name := rfl
    rw [hn1, hn2]
    by_cases hc : strLeB p.basePlan.name q.basePlan.name = true
    · rw [if_pos hc, if_pos hc]
      rfl
    · rw [if_neg hc, if_neg hc]
      simp [ih]

theorem sortByName_scrub (exp : String → String) (l : List ProviderPlanModel) :
    sortByName (l.map (scrubPP exp)) = (sortByName l).map (scrubPP exp) := by
  induction l with
  | nil => rfl
  | cons p ps ih =>
    show sortByName (scrubPP exp p :: ps.map (scrubPP exp)) = _
    rw [sortByName, sortByName, ih, insertByName_scrub]

theorem getPlans_scrub (exp : String → String) (s : Store) (svcId : String) :
    getPlans exp (scrubStore s) svcId = (getPlans exp s svcId).map (scrubPP exp) := by
  rw [getPlans, getPlans,
    getPlansRows_scrub exp s (fun p => p.service == svcId) (fun p => rfl), sortByName_scrub]

theorem getServices_scrub (exp : String → String) (s : Store) :
    getServices exp (scrubStore s) = getServices exp s := by
  rw [getServices, getServices]
  show (s.services.filter _).map _ = _
  apply List.map_congr_left
  intro sv _
  have hp : (getPlans exp (scrubStore s) sv.service).map (fun p => p.basePlan) =
      (getPlans exp s sv.service).map (fun p => p.basePlan) := by
    rw [getPlans_scrub, List.map_map]
    rfl
  rw [hp]

theorem getInstanceEntry_scrub (s : Store) (id : String) :
    getInstanceEntry (scrubStore s) id = getInstanceEntry s id := rfl

theorem scrubInst_plan (exp : String → String) (i : InstanceM) :
    (scrubInst exp i).plan = scrubPP exp i.plan := rfl

theorem scrubInst_name (exp : String → String) (i : InstanceM) :
    (scrubInst exp i).name = i.name := rfl

theorem getUrl_scrubInst (env : Env) (exp : String → String) (i : InstanceM) :
    getUrl env (scrubInst exp i) = getUrl env i := rfl

theorem getProviderByPlan_scrub (env : Env) (p : ProviderPlanModel) :
    getProviderByPlan env (scrubPP env.expandEnv p) = getProviderByPlan env p := rfl

theorem getInstanceById_scrub (env : Env) (s : Store) (id : String) :
    getInstanceById env (scrubStore s) id =
      ((getInstanceById env s id).1.map (scrubInst env.expandEnv),
       (getInstanceById env s id).2) := by
  rw [getInstanceById, getInstanceById, getInstanceEntry_scrub]
  cases getInstanceEntry s id with
  | error e => rfl
  | ok entry =>
    simp only []
    rw [getPlanByID_scrub]
    cases getPlanByID env.expandEnv s entry.planId with
    | error e => rfl
    | ok plan =>
      simp only [Option.map, Except.map]
      rw [getProviderByPlan_scrub]
      cases getProviderByPlan env plan with
      | error e => rfl
      | ok u =>
        simp only []
        rw [awsGetInstance, awsGetInstance]
        cases env.arnOf entry.name with
        | error e => rfl
        | ok arn => rfl

/-- The webhook body of every POST the dispatcher emits is the constant
key-sorted literal, independent of any store content. -/
theorem dispatchWebhook_posts_body (env : Env) (s : Store) (t : TaskRow) :
    ∀ post ∈ (dispatchWebhook env s t).2.2, post.body = webhookBody := by
  intro post hpost
  rw [dispatchWebhook] at hpost
  split at hpost
  · simp at hpost
  · split at hpost
    · simp at hpost
    · split at hpost
      · simp at hpost
      · split at hpost
        · simp at hpost
        · split at hpost
          · simp at hpost
          · split at hpost
            · simp at hpost
              simp [hpost]
            · split at hpost
              · split at hpost <;> simp at hpost <;> simp [hpost]
              · split at hpost <;> simp at hpost <;> simp [hpost]

theorem dispatchCore_posts_body (env : Env) (s : Store) (t : TaskRow) :
    ∀ post ∈ (dispatchCore env s t).2.2, post.body = webhookBody := by
  intro post hpost
  rw [dispatchCore] at hpost
  split at hpost
  · rw [dispatchDelete_posts] at hpost; cases hpost
  · split at hpost
    · rw [dispatchResync_posts] at hpost; cases hpost
    · split at hpost
      · rw [dispatchResyncUntil_posts] at hpost; cases hpost
      · split at hpost
        · rw [dispatchPostProvision_posts] at hpost; cases hpost
        · split at hpost
          · exact dispatchWebhook_posts_body env s t post hpost
          · split at hpost
            · rw [dispatchChangePlans_posts] at hpost; cases hpost
            · split at hpost
              · rw [dispatchChangeProviders_posts] at hpost; cases hpost
              · cases hpost

/-- C9: erasing every plan's provider_private_details changes no catalog
response, no Bind response, no GetBinding response, and every webhook body
the worker emits is the constant state document; hence no serialized OSB
output or webhook payload depends on provider_private_details. -/
theorem c9_private_details_never_serialized (env : Env) (s : Store) (req : BindRequest)
    (instId : String) (t : TaskRow) :
    getServices env.expandEnv (scrubStore s) = getServices env.expandEnv s ∧
    bind env (scrubStore s) req = bind env s req ∧
    getBinding env (scrubStore s) instId = getBinding env s instId ∧
    (∀ post ∈ (dispatchTask env s t).2.2, post.body = webhookBody) := by
  refine ⟨getServices_scrub env.expandEnv s, ?_, ?_, ?_⟩
  · rcases hgi : getInstanceById env s req.instanceID with ⟨r, calls⟩
    rw [bind, bind, getInstanceById_scrub, hgi]
    cases r with
    | error e => rfl
    | ok inst =>
      cases hready : inst.ready with
      | false =>
        have h1 : (scrubInst env.expandEnv inst).ready = false := hready
        simp [Except.map, h1, hready]
      | true =>
        have h1 : (scrubInst env.expandEnv inst).ready = true := hready
        simp only [h1, hready, scrubInst_plan, getProviderByPlan_scrub, Except.map]
        cases hp : getProviderByPlan env inst.plan with
        | error e => simp [hp]
        | ok u =>
          simp only [hp]
          cases req.appGUID <;> simp [getUrl_scrubInst, scrubInst_name]
  · rcases hgi : getInstanceById env s instId with ⟨r, calls⟩
    rw [getBinding, getBinding, getInstanceById_scrub, hgi]
    cases r with
    | error e => rfl
    | ok inst =>
      cases hcgb : CanGetBindings inst.status with
      | false =>
        have h1 : CanGetBindings (scrubInst env.expandEnv inst).status = false := hcgb
        simp [Except.map, h1, hcgb]
      | true =>
        have h1 : CanGetBindings (scrubInst env.expandEnv inst).status = true := hcgb
        simp only [h1, hcgb, scrubInst_plan, getProviderByPlan_scrub, Except.map]
        cases hp : getProviderByPlan env inst.plan with
        | error e => simp [hp]
        | ok u => simp [hp, getUrl_scrubInst]
  · intro post hpost
    rw [dispatchTask_posts_eq] at hpost
    exact dispatchCore_posts_body env s t post hpost

theorem str_append_ne (a b : String) (ha : a ≠ "") : a ++ b ≠ "" := by
  intro h
  apply ha
  have hd : a.data ++ b.data = ([] : List Char) := congrArg String.data h
  have hnil : a.data = [] := (List.append_eq_nil.mp hd).1
  cases a with
  | mk d =>
    have : d = [] := hnil
    subst this
    rfl

theorem str_cons_ne (c : Char) (cs : List Char) (s : String) (h : s.data = c :: cs) :
    s ≠ "" := by
  intro he
  rw [he] at h
  cases h

theorem findTask_updateTask (s : Store) (id : Nat) (st : Option String) (r : Option Nat)
    (md res : Option String) (sta fin : Option Nat) :
    findTask (updateTask s id st r md res sta fin) id = (findTask s id).map (fun u =>
      { u with
        status := st.getD u.status
        retries := r.getD u.retries
        metadata := md.getD u.metadata
        result := res.getD u.result
        started := (match sta with | some v => some v | none => u.started)
        finished := (match fin with | some v => some v | none => u.finished)
        updated := s.now }) := by
  rw [findTask, updateTask, findTask]
  rw [find?_map_of_pres s.tasks (fun u => u.task == id) _
    (fun u => by by_cases h : (u.task == id) = true <;> simp [h])]
  cases hfind : s.tasks.find? (fun u => u.task == id) with
  | none => rfl
  | some u =>
    have hq := List.find?_some hfind
    simp [hq]
    intro h
    exact absurd (by simpa using hq) h

theorem findTask_applyTaskWrite (s : Store) (id : Nat) (w : TaskWrite) :
    findTask (applyTaskWrite s id w) id = (findTask s id).map (fun u =>
      { u with
        status := w.status
        retries := w.retries
        result := w.result
        updated := s.now
        finished := if w.setFinished then some s.now else u.finished }) := by
  rw [applyTaskWrite]
  cases hw : w.setFinished with
  | false =>
    rw [if_neg (by simp [hw]), updateTaskStatus, findTask_updateTask]
    cases findTask s id with
    | none => rfl
    | some u => simp [hw]
  | true =>
    rw [if_pos (by simp [hw]), finishedTask, findTask_updateTask]
    cases findTask s id with
    | none => rfl
    | some u => simp [hw]

theorem findTask_updateInstance (s : Store) (a1 a2 a3 a4 a5 a6 a7 : String) (id : Nat) :
    findTask (updateInstance s a1 a2 a3 a4 a5 a6 a7) id = findTask s id := rfl

theorem findTask_deleteInstance (s : Store) (rid : String) (id : Nat) :
    findTask (deleteInstance s rid) id = (findTask s id).map (fun u =>
      if u.resource == rid then { u with deleted := true } else u) := by
  rw [findTask, deleteInstance, findTask]
  exact find?_map_of_pres s.tasks (fun u => u.task == id) _
    (fun u => by by_cases h : (u.resource == rid) = true <;> simp [h])

theorem upgradeWithinProviders_store (env : Env) (s : Store) (fromDb : InstanceM)
    (toPlanId : String) :
    (upgradeWithinProviders env s fromDb toPlanId).2 = s := by
  rw [upgradeWithinProviders]
  simp only [awsModify]
  repeat' split
  all_goals rfl

/-- Fields of any task row other than the soft-delete flag are untouched by
the storage effects a dispatch branch performs before its final task write. -/
theorem dispatchCore_findTask (env : Env) (s : Store) (t : TaskRow) (id : Nat) :
    ∃ g : TaskRow → TaskRow,
      (∀ u, (g u).task = u.task ∧ (g u).status = u.status ∧ (g u).retries = u.retries ∧
        (g u).result = u.result ∧ (g u).started = u.started ∧ (g u).finished = u.finished) ∧
      findTask (dispatchCore env s t).1 id = (findTask s id).map g := by
  have hid : ∃ g : TaskRow → TaskRow,
      (∀ u, (g u).task = u.task ∧ (g u).status = u.status ∧ (g u).retries = u.retries ∧
        (g u).result = u.result ∧ (g u).started = u.started ∧ (g u).finished = u.finished) ∧
      findTask s id = (findTask s id).map g := by
    refine ⟨fun u => u, fun u => ⟨rfl, rfl, rfl, rfl, rfl, rfl⟩, ?_⟩
    cases findTask s id <;> rfl
  have hdel : ∀ rid, ∃ g : TaskRow → TaskRow,
      (∀ u, (g u).task = u.task ∧ (g u).status = u.status ∧ (g u).retries = u.retries ∧
        (g u).result = u.result ∧ (g u).started = u.started ∧ (g u).finished = u.finished) ∧
      findTask (deleteInstance s rid) id = (findTask s id).map g := by
    intro rid
    refine ⟨fun u => if u.resource == rid then { u with deleted := true } else u, ?_,
      findTask_deleteInstance s rid id⟩
    intro u
    by_cases h : (u.resource == rid) = true <;> simp [h]
  rw [dispatchCore]
  split
  · rw [dispatchDelete]
    repeat' split
    all_goals (first | exact hid | exact hdel _)
  · split
    · rw [dispatchResync]
      repeat' split
      all_goals exact hid
    · split
      · rw [dispatchResyncUntil]
        repeat' split
        all_goals exact hid
      · split
        · rw [dispatchPostProvision]
          repeat' split
          all_goals exact hid
        · split
          · rw [dispatchWebhook]
            repeat' split
            all_goals exact hid
          · split
            · rw [dispatchChangePlans]
              repeat' split
              all_goals
                first
                | exact hid
                | (rename_i x2 inst0 hgi0 x1 toPlan0 hpm0 x0 e0 s10 heq
                   have h2 := upgradeWithinProviders_store env s inst0 toPlan0
                   rw [heq] at h2
                   have h3 : s10 = s := h2
                   rw [h3]
                   exact hid)
            · split
              · rw [dispatchChangeProviders]
                repeat' split
                all_goals exact hid
              · exact hid

/-- The clock never moves backwards across a dispatch branch's storage
effects. -/
theorem dispatchCore_now_ge (env : Env) (s : Store) (t : TaskRow) :
    s.now ≤ (dispatchCore env s t).1.now := by
  rw [dispatchCore]
  split
  · rw [dispatchDelete]
    repeat' split
    all_goals simp [deleteInstance]
  · split
    · rw [dispatchResync]
      repeat' split
      all_goals simp [updateInstance]
    · split
      · rw [dispatchResyncUntil]
        repeat' split
        all_goals simp [updateInstance]
      · split
        · rw [dispatchPostProvision]
          repeat' split
          all_goals (simp [updateInstance]; try omega)
        · split
          · rw [dispatchWebhook]
            repeat' split
            all_goals simp
          · split
            · rw [dispatchChangePlans]
              repeat' split
              all_goals
                first
                | (simp; done)
                | (rename_i x2 inst0 hgi0 x1 toPlan0 hpm0 x0 e0 s10 heq
                   have h2 := upgradeWithinProviders_store env s inst0 toPlan0
                   rw [heq] at h2
                   have h3 : s10 = s := h2
                   rw [h3]
                   try simp)
            · split
              · rw [dispatchChangeProviders]
                repeat' split
                all_goals simp
              · simp

/-- Retry cap per action as hard-coded in the worker. -/
def retryCap (action : String) : Nat :=
  if action == "delete" then 10 else 60

/-- Shape of every task write a dispatch path can perform: a pending retry
write that never touches finished and bumps retries by at most one, a
terminal write through FinishedTask, or the webhook branch's failed write
through UpdateTaskStatus when retries are disabled. -/
def WriteShapeOk (env : Env) (t : TaskRow) (w : TaskWrite) : Prop :=
  (w.status = "pending" ∧ w.setFinished = false ∧ w.result ≠ "" ∧
    (w.retries = t.retries + 1 ∨ w.retries = t.retries)) ∨
  ((w.status = "finished" ∨ w.status = "failed") ∧ w.setFinished = true) ∨
  (w.status = "failed" ∧ w.setFinished = false ∧
    t.action = "notify-create-service-webhook" ∧ env.retryWebhooks = false ∧
    w.retries = t.retries + 1 ∧ w.result ≠ "")

theorem dispatchDelete_shape (env : Env) (s : Store) (t : TaskRow) :
    ∀ w, (dispatchDelete env s t).2.1 = some w → WriteShapeOk env t w := by
  intro w hw
  rw [dispatchDelete] at hw
  repeat' split at hw
  all_goals
    (simp only [Option.some.injEq] at hw
     subst hw
     first
     | exact Or.inr (Or.inl ⟨Or.inl rfl, rfl⟩)
     | exact Or.inr (Or.inl ⟨Or.inr rfl, rfl⟩)
     | exact Or.inl ⟨rfl, rfl, str_cons_ne _ _ _ rfl, Or.inl rfl⟩
     | exact Or.inl ⟨rfl, rfl, str_cons_ne _ _ _ rfl, Or.inr rfl⟩)

theorem dispatchResync_shape (env : Env) (s : Store) (t : TaskRow) :
    ∀ w, (dispatchResync env s t).2.1 = some w → WriteShapeOk env t w := by
  intro w hw
  rw [dispatchResync] at hw
  repeat' split at hw
  all_goals
    (simp only [Option.some.injEq] at hw
     subst hw
     first
     | exact Or.inr (Or.inl ⟨Or.inl rfl, rfl⟩)
     | exact Or.inr (Or.inl ⟨Or.inr rfl, rfl⟩)
     | exact Or.inl ⟨rfl, rfl, str_cons_ne _ _ _ rfl, Or.inl rfl⟩)

theorem dispatchResyncUntil_shape (env : Env) (s : Store) (t : TaskRow) :
    ∀ w, (dispatchResyncUntil env s t).2.1 = some w → WriteShapeOk env t w := by
  intro w hw
  rw [dispatchResyncUntil] at hw
  repeat' split at hw
  all_goals
    (simp only [Option.some.injEq] at hw
     subst hw
     first
     | exact Or.inr (Or.inl ⟨Or.inl rfl, rfl⟩)
     | exact Or.inr (Or.inl ⟨Or.inr rfl, rfl⟩)
     | exact Or.inl ⟨rfl, rfl, str_cons_ne _ _ _ rfl, Or.inl rfl⟩)

theorem dispatchPostProvision_shape (env : Env) (s : Store) (t : TaskRow) :
    ∀ w, (dispatchPostProvision env s t).2.1 = some w → WriteShapeOk env t w := by
  intro w hw
  rw [dispatchPostProvision] at hw
  repeat' split at hw
  all_goals
    (simp only [Option.some.injEq] at hw
     subst hw
     first
     | exact Or.inr (Or.inl ⟨Or.inl rfl, rfl⟩)
     | exact Or.inr (Or.inl ⟨Or.inr rfl, rfl⟩)
     | exact Or.inl ⟨rfl, rfl, str_cons_ne _ _ _ rfl, Or.inl rfl⟩
     | exact Or.inl ⟨rfl, rfl, str_cons_ne _ _ _ rfl, Or.inr rfl⟩)

theorem dispatchWebhook_shape (env : Env) (s : Store) (t : TaskRow)
    (haction : t.action = "notify-create-service-webhook") :
    ∀ w, (dispatchWebhook env s t).2.1 = some w → WriteShapeOk env t w := by
  intro w hw
  rw [dispatchWebhook] at hw
  repeat' split at hw
  all_goals
    (simp only [Option.some.injEq] at hw
     subst hw
     first
     | exact Or.inr (Or.inl ⟨Or.inl rfl, rfl⟩)
     | exact Or.inr (Or.inl ⟨Or.inr rfl, rfl⟩)
     | exact Or.inl ⟨rfl, rfl, str_cons_ne _ _ _ rfl, Or.inl rfl⟩
     | exact Or.inl ⟨rfl, rfl, str_cons_ne _ _ _ rfl, Or.inr rfl⟩
     | exact Or.inr (Or.inr ⟨rfl, rfl, haction, by simp_all, rfl,
         str_cons_ne _ _ _ rfl⟩))

theorem dispatchChangePlans_shape (env : Env) (s : Store) (t : TaskRow) :
    ∀ w, (dispatchChangePlans env s t).2.1 = some w → WriteShapeOk env t w := by
  intro w hw
  rw [dispatchChangePlans] at hw
  repeat' split at hw
  all_goals
    (simp only [Option.some.injEq] at hw
     subst hw
     first
     | exact Or.inr (Or.inl ⟨Or.inl rfl, rfl⟩)
     | exact Or.inr (Or.inl ⟨Or.inr rfl, rfl⟩)
     | exact Or.inl ⟨rfl, rfl, str_cons_ne _ _ _ rfl, Or.inl rfl⟩
     | exact Or.inl ⟨rfl, rfl, str_cons_ne _ _ _ rfl, Or.inr rfl⟩)

theorem dispatchChangeProviders_shape (env : Env) (s : Store) (t : TaskRow) :
    ∀ w, (dispatchChangeProviders env s t).2.1 = some w → WriteShapeOk env t w := by
  intro w hw
  rw [dispatchChangeProviders] at hw
  repeat' split at hw
  all_goals
    (simp only [Option.some.injEq] at hw
     subst hw
     first
     | exact Or.inr (Or.inl ⟨Or.inl rfl, rfl⟩)
     | exact Or.inr (Or.inl ⟨Or.inr rfl, rfl⟩)
     | exact Or.inl ⟨rfl, rfl, str_cons_ne _ _ _ rfl, Or.inl rfl⟩
     | exact Or.inl ⟨rfl, rfl, str_cons_ne _ _ _ rfl, Or.inr rfl⟩)

/-- Shared characterization of the final task write of every dispatch path. -/
theorem dispatchCore_write_shape (env : Env) (s : Store) (t : TaskRow) :
    ∀ w, (dispatchCore env s t).2.1 = some w → WriteShapeOk env t w := by
  intro w hw
  rw [dispatchCore] at hw
  split at hw
  · exact dispatchDelete_shape env s t w hw
  · split at hw
    · exact dispatchResync_shape env s t w hw
    · split at hw
      · exact dispatchResyncUntil_shape env s t w hw
      · split at hw
        · exact dispatchPostProvision_shape env s t w hw
        · split at hw
          · rename_i h5
            exact dispatchWebhook_shape env s t (by simpa using h5) w hw
          · split at hw
            · exact dispatchChangePlans_shape env s t w hw
            · split at hw
              · exact dispatchChangeProviders_shape env s t w hw
              · simp at hw

/-- At the per-action retry cap every dispatched action writes a terminal
failed record with a descriptive result through FinishedTask. -/
theorem dispatchCore_cap (env : Env) (s : Store) (t : TaskRow)
    (hcap : t.retries ≥ retryCap t.action) :
    ∀ w, (dispatchCore env s t).2.1 = some w →
      w.status = "failed" ∧ w.setFinished = true ∧ w.result ≠ "" := by
  intro w hw
  rw [dispatchCore] at hw
  rw [retryCap] at hcap
  split at hw
  · rename_i h1
    rw [if_pos h1] at hcap
    rw [dispatchDelete, if_pos hcap] at hw
    simp only [Option.some.injEq] at hw
    subst hw
    exact ⟨rfl, rfl, str_cons_ne _ _ _ rfl⟩
  all_goals rename_i h1
  all_goals rw [if_neg h1] at hcap
  · split at hw
    · rw [dispatchResync, if_pos hcap] at hw
      simp only [Option.some.injEq] at hw
      subst hw
      exact ⟨rfl, rfl, str_cons_ne _ _ _ rfl⟩
    · split at hw
      · rw [dispatchResyncUntil, if_pos hcap] at hw
        simp only [Option.some.injEq] at hw
        subst hw
        exact ⟨rfl, rfl, str_cons_ne _ _ _ rfl⟩
      · split at hw
        · rw [dispatchPostProvision, if_pos hcap] at hw
          simp only [Option.some.injEq] at hw
          subst hw
          exact ⟨rfl, rfl, str_cons_ne _ _ _ rfl⟩
        · split at hw
          · rw [dispatchWebhook, if_pos hcap] at hw
            simp only [Option.some.injEq] at hw
            subst hw
            exact ⟨rfl, rfl, str_cons_ne _ _ _ rfl⟩
          · split at hw
            · rw [dispatchChangePlans, if_pos hcap] at hw
              simp only [Option.some.injEq] at hw
              subst hw
              exact ⟨rfl, rfl, str_cons_ne _ _ _ rfl⟩
            · split at hw
              · rw [dispatchChangeProviders, if_pos hcap] at hw
                simp only [Option.some.injEq] at hw
                subst hw
                exact ⟨rfl, rfl, str_cons_ne _ _ _ rfl⟩
              · simp at hw

/-- C6 amended: on every non-fatal error path the task is re-written as
pending with a non-empty human-readable result, finished and started are
left untouched, and retries grows by exactly one except on the enumerated
paths that write the unchanged counter back; a terminal failed record
without finished arises only from the webhook branch with retries
disabled; at the per-action retry cap the task is written failed with a
descriptive result through FinishedTask. -/
theorem c6_retry_accounting (env : Env) (s : Store) (t : TaskRow) :
    ∀ w, (dispatchCore env s t).2.1 = some w →
      (w.status = "pending" →
        w.setFinished = false ∧ w.result ≠ "" ∧
        (w.retries = t.retries + 1 ∨ w.retries = t.retries)) ∧
      (w.status = "failed" → w.setFinished = false →
        t.action = "notify-create-service-webhook" ∧ env.retryWebhooks = false ∧
        w.retries = t.retries + 1 ∧ w.result ≠ "") ∧
      (w.setFinished = false → ∀ s' u, findTask s' t.task = some u →
        (findTask (applyTaskWrite s' t.task w) t.task).map
            (fun v => (v.started, v.finished)) =
          some (u.started, u.finished)) ∧
      (t.retries ≥ retryCap t.action →
        w.status = "failed" ∧ w.setFinished = true ∧ w.result ≠ "") := by
  intro w hw
  have hshape := dispatchCore_write_shape env s t w hw
  refine ⟨?_, ?_, ?_, fun hcap => dispatchCore_cap env s t hcap w hw⟩
  · intro hp
    rcases hshape with ⟨_, hf, hr, hrt⟩ | ⟨h1 | h1, _⟩ | ⟨h1, _⟩
    · exact ⟨hf, hr, hrt⟩
    · exact absurd (hp.symm.trans h1) (by decide)
    · exact absurd (hp.symm.trans h1) (by decide)
    · exact absurd (hp.symm.trans h1) (by decide)
  · intro hfail hnofin
    rcases hshape with ⟨h1, _⟩ | ⟨_, h2⟩ | ⟨_, _, ha, hr, hrt, hres⟩
    · exact absurd (hfail.symm.trans h1) (by decide)
    · exact absurd (hnofin.symm.trans h2) (by decide)
    · exact ⟨ha, hr, hrt, hres⟩
  · intro hnofin s' u hu
    rw [findTask_applyTaskWrite, hu]
    simp [hnofin]

/-- C5 amended: every task the worker drives to a terminal status carries a
non-null finished stamp not earlier than its started stamp, except a
notify-create-service-webhook task that received a non-2xx/3xx response
with RETRY_WEBHOOKS unset, which is marked failed with finished left as it
was (null for worker-created tasks). -/
theorem c5_terminal_finished (env : Env) (s : Store) (hwf : tasksUnique s.tasks = true) :
    ∀ s2 t posts, workerIteration env s = (s2, .ran t, posts) →
    ∀ u, findTask s2 t.task = some u →
    (u.status = "finished" ∨ u.status = "failed") →
    (∃ st f, u.started = some st ∧ u.finished = some f ∧ st ≤ f) ∨
    (u.status = "failed" ∧ u.finished = t.finished ∧
      t.action = "notify-create-service-webhook" ∧ env.retryWebhooks = false) := by
  intro s2 t posts hw u hu hterm
  rw [workerIteration] at hw
  rcases hpop : popPendingTaskF env s with ⟨r, s1⟩
  rw [hpop] at hw
  cases r with
  | error e =>
    by_cases he : e = "sql: no rows in result set"
    · simp [he] at hw
    · simp [he] at hw
  | ok t' =>
    simp only [] at hw
    rcases hdt : dispatchTask env s1 t' with ⟨s2', wo, po⟩
    rw [hdt] at hw
    simp only [Prod.mk.injEq, WorkerStep.ran.injEq] at hw
    obtain ⟨hs2, ht, hposts⟩ := hw
    subst ht
    rw [← hs2] at hu
    -- decompose the pop
    rw [popPendingTaskF] at hpop
    cases hf : env.popFault with
    | some e => rw [hf] at hpop; simp at hpop
    | none =>
      rw [hf] at hpop
      obtain ⟨t0, ho, htdef, hsdef⟩ := popPendingTask_ok hpop
      have ht0mem : t0 ∈ s.tasks := by
        have := oldestOf_mem ho
        exact (List.mem_filter.mp this).1
      have htask : t'.task = t0.task := by rw [htdef]
      have hfind1 : findTask s1 t'.task = some t' := by
        rw [htask, hsdef, findTask]
        show (s.tasks.map _).find? _ = _
        rw [find?_map_of_pres s.tasks (fun u => u.task == t0.task) _
          (fun u => by by_cases h : (u.task == t0.task) = true <;> simp [h])]
        rw [show s.tasks.find? (fun u => u.task == t0.task) = some t0 from
          find?_eq_of_tasksUnique hwf ht0mem]
        simp [htdef]
      -- decompose the dispatch
      rw [dispatchTask] at hdt
      rcases hdc : dispatchCore env s1 t' with ⟨sc, wopt, po2⟩
      rw [hdc] at hdt
      obtain ⟨g, hg, hgfind⟩ := dispatchCore_findTask env s1 t' t'.task
      have hfindc : findTask sc t'.task = some (g t') := by
        have h0 : findTask (dispatchCore env s1 t').1 t'.task =
            (findTask s1 t'.task).map g := hgfind
        rw [hdc] at h0
        rw [h0, hfind1]
        rfl
      have hnow : s1.now ≤ sc.now := by
        have h0 := dispatchCore_now_ge env s1 t'
        rw [hdc] at h0
        exact h0
      cases wopt with
      | none =>
        simp only [Prod.mk.injEq] at hdt
        obtain ⟨hsc, _, _⟩ := hdt
        rw [← hsc] at hu
        rw [hu] at hfindc
        have hstat : u.status = t'.status := by
          rw [← (Option.some.injEq _ _).mp hfindc.symm]
          exact (hg t').2.1
        have hts : t'.status = "started" := by rw [htdef]
        rcases hterm with h | h <;> rw [hstat, hts] at h <;> exact absurd h (by decide)
      | some w =>
        simp only [Prod.mk.injEq] at hdt
        obtain ⟨hsc, _, _⟩ := hdt
        have hwshape : (dispatchCore env s1 t').2.1 = some w := by rw [hdc]
        have hshape := dispatchCore_write_shape env s1 t' w hwshape
        rw [← hsc] at hu
        rw [findTask_applyTaskWrite, hfindc] at hu
        simp only [Option.map, Option.some.injEq] at hu
        have hu2 : u = { g t' with
            status := w.status
            retries := w.retries
            result := w.result
            updated := sc.now
            finished := if w.setFinished then some sc.now else (g t').finished } := hu.symm
        have hust : u.status = w.status := by rw [hu2]
        have hustarted : u.started = some s.now := by
          rw [hu2]
          show (g t').started = some s.now
          rw [(hg t').2.2.2.2.1, htdef]
        rcases hshape with ⟨h1, _⟩ | ⟨h1, h2⟩ | ⟨h1, h2, h3, h4, _⟩
        · rcases hterm with h | h <;> rw [hust, h1] at h <;> exact absurd h (by decide)
        · left
          refine ⟨s.now, sc.now, hustarted, ?_, ?_⟩
          · rw [hu2]
            show (if w.setFinished then some sc.now else (g t').finished) = some sc.now
            rw [h2]
            simp
          · have h5 : s.now ≤ s1.now := by
              rw [hsdef]
              exact Nat.le_succ s.now
            omega
        · right
          refine ⟨hust.trans h1, ?_, h3, h4⟩
          rw [hu2]
          show (if w.setFinished then some sc.now else (g t').finished) = t'.finished
          rw [h2]
          simp
          rw [(hg t').2.2.2.2.2]


/-! Row-existence facts of the provision paths, shared by the idempotency
and cold-provision claims. -/

theorem getInstanceEntry_ok_row (s : Store) (id : String) (e : Entry)
    (h : getInstanceEntry s id = .ok e) :
    s.resources.any (fun r => r.id == id) = true := by
  rw [getInstanceEntry] at h
  cases hf : s.resources.find? (fun r => r.id == id && !r.deleted) with
  | none => rw [hf] at h; simp at h
  | some r =>
    have hm := List.mem_of_find?_eq_some hf
    have hp := List.find?_some hf
    simp only [Bool.and_eq_true, beq_iff_eq] at hp
    exact List.any_eq_true.mpr ⟨r, hm, by simp [hp.1]⟩

theorem getInstanceById_ok_row (env : Env) (s : Store) (id : String) (inst : InstanceM)
    (calls : List ProvCall) (h : getInstanceById env s id = (.ok inst, calls)) :
    s.resources.any (fun r => r.id == id) = true := by
  rw [getInstanceById] at h
  cases hge : getInstanceEntry s id with
  | error e => rw [hge] at h; simp at h
  | ok entry => exact getInstanceEntry_ok_row s id entry hge

theorem awsProvision_ok_shape (env : Env) (npfx id : String) (plan : ProviderPlanModel)
    (owner : String) (inst : InstanceM)
    (h : awsProvision env npfx id plan owner = .ok inst) :
    inst.id = id ∧ inst.name = npfx ++ "-u" ++ env.uuidHead ∧
    inst.status = "available" ∧ inst.ready = true := by
  simp only [awsProvision] at h
  split at h
  · exact absurd h (by simp)
  split at h
  · exact absurd h (by simp)
  split at h
  · exact absurd h (by simp)
  split at h
  · exact absurd h (by simp)
  split at h
  · exact absurd h (by simp)
  split at h
  · exact absurd h (by simp)
  split at h
  · exact absurd h (by simp)
  rw [Except.ok.injEq] at h
  subst h
  exact ⟨rfl, rfl, rfl, rfl⟩

theorem getUnclaimedInstance_ok_row (s : Store) (planId newId : String) (e : Entry)
    (s1 : Store) (h : getUnclaimedInstance s planId newId = (.ok e, s1)) :
    s1.resources.any (fun r => r.id == newId) = true := by
  rw [getUnclaimedInstance] at h
  cases hc : poolCandidate s planId newId with
  | none => rw [hc] at h; simp at h
  | some row =>
    rw [hc] at h
    cases ha : s.resources.any (fun r => r.id == newId) with
    | true => rw [ha] at h; simp at h
    | false =>
      rw [ha] at h
      simp only [Bool.false_eq_true, if_false, Prod.mk.injEq] at h
      rw [← h.2]
      apply List.any_eq_true.mpr
      refine ⟨⟨newId, row.name, row.planId, true, row.status, row.username, row.password,
        row.endpoint, s.now, false⟩, ?_, by simp⟩
      apply List.mem_filter.mpr
      refine ⟨List.mem_append.mpr (Or.inr (List.mem_singleton.mpr rfl)), by simp⟩

theorem bGetUnclaimedInstance_ok_row (env : Env) (s : Store) (planId instId : String)
    (inst : InstanceM) (s1 : Store) (calls : List ProvCall)
    (h : bGetUnclaimedInstance env s planId instId = (.ok inst, s1, calls)) :
    s1.resources.any (fun r => r.id == instId) = true := by
  rw [bGetUnclaimedInstance] at h
  split at h
  · simp at h
  rename_i entry sA hga
  split at h
  · rename_i i cs hgi
    simp only [Prod.mk.injEq] at h
    rw [← h.2.1]
    exact getUnclaimedInstance_ok_row s planId instId entry sA hga
  · split at h
    · simp at h
    · simp at h

theorem addInstanceF_ok_row (env : Env) (s : Store) (inst : InstanceM) (s2 : Store)
    (h : addInstanceF env s inst = .ok s2) :
    s2.resources = s.resources ++
      [⟨inst.id, inst.name, inst.plan.id, true, inst.status, inst.username,
        inst.password, inst.endpoint, s.now, false⟩] ∧
    s2.tasks = s.tasks := by
  rw [addInstanceF] at h
  split at h
  · simp at h
  rw [addInstance] at h
  split at h
  · simp at h
  rw [Except.ok.injEq] at h
  rw [← h]
  exact ⟨rfl, rfl⟩

theorem provisionFresh_ok_shape (env : Env) (npfx : String) (s : Store)
    (req : ProvisionRequest) (plan : ProviderPlanModel) (calls0 : List ProvCall)
    (resp : ProvisionResponse) (s1 : Store) (calls : List ProvCall)
    (h : provisionFresh env npfx s req plan calls0 = (.ok resp, s1, calls)) :
    calls = calls0 ++ [.provisionCall req.instanceID plan.id req.organizationGUID] ∧
    resp = ⟨false, false, none⟩ ∧
    ∃ r ∈ s1.resources, r.id = req.instanceID ∧ r.name = npfx ++ "-u" ++ env.uuidHead ∧
      r.claimed = true ∧ r.status = "available" := by
  rw [provisionFresh] at h
  split at h
  · simp at h
  split at h
  · simp at h
  rename_i inst haws
  obtain ⟨hin, hnm, hst, hrd⟩ :=
    awsProvision_ok_shape env npfx req.instanceID plan req.organizationGUID inst haws
  split at h
  · split at h
    · simp at h
    · split at h
      · simp at h
      · simp at h
  rename_i s2 hadd
  obtain ⟨hres, _⟩ := addInstanceF_ok_row env s inst s2 hadd
  split at h
  · rename_i hcond
    rw [hst] at hcond
    simp [IsAvailable] at hcond
  simp only [Prod.mk.injEq, Except.ok.injEq] at h
  obtain ⟨hresp, hs1, hcalls⟩ := h
  refine ⟨hcalls.symm, ?_, ?_⟩
  · rw [← hresp, provisionResponse, hrd]
    simp
  · refine ⟨⟨inst.id, inst.name, inst.plan.id, true, inst.status, inst.username,
      inst.password, inst.endpoint, s.now, false⟩, ?_, hin, hnm, rfl, hst⟩
    rw [← hs1, hres]
    exact List.mem_append.mpr (Or.inr (List.mem_singleton.mpr rfl))

theorem provisionFresh_ok_row (env : Env) (npfx : String) (s : Store)
    (req : ProvisionRequest) (plan : ProviderPlanModel) (calls0 : List ProvCall)
    (resp : ProvisionResponse) (s1 : Store) (calls : List ProvCall)
    (h : provisionFresh env npfx s req plan calls0 = (.ok resp, s1, calls)) :
    s1.resources.any (fun r => r.id == req.instanceID) = true := by
  obtain ⟨_, _, r, hr, hid, _⟩ := provisionFresh_ok_shape env npfx s req plan calls0
    resp s1 calls h
  exact List.any_eq_true.mpr ⟨r, hr, by simp [hid]⟩

theorem provision_ok_row (env : Env) (npfx : String) (s : Store) (req : ProvisionRequest)
    (resp : ProvisionResponse) (s1 : Store) (calls : List ProvCall)
    (h : provision env npfx s req = (.ok resp, s1, calls)) :
    (req.instanceID == "") = false ∧
    s1.resources.any (fun r => r.id == req.instanceID) = true := by
  rw [provision] at h
  split at h
  · simp at h
  split at h
  · simp at h
  rename_i hne
  refine ⟨by simpa using hne, ?_⟩
  split at h
  · simp at h
  split at h
  · simp at h
  rename_i plan hplan
  split at h
  · rename_i inst cs hgi
    split at h
    · simp at h
    · simp only [Prod.mk.injEq] at h
      rw [← h.2.1]
      exact getInstanceById_ok_row env s req.instanceID inst cs hgi
  · rename_i e cs hgi
    split at h
    · split at h
      · rename_i inst sA csA hb
        simp only [Prod.mk.injEq] at h
        rw [← h.2.1]
        exact bGetUnclaimedInstance_ok_row env s req.planID req.instanceID inst sA csA hb
      · rename_i e2 sA csA hb
        split at h
        · exact provisionFresh_ok_row env npfx sA req plan (cs ++ csA) resp s1 calls h
        · simp at h
    · simp at h

/-- C1 amended: once a resources row carries an instance id, every later
Provision of that id (even with accepts_incomplete=true) is rejected by
ValidateInstanceID with the InstanceInvalid unprocessable error: the
documented success-with-exists response is unreachable, and no provider
call is made. -/
theorem c1_reprovision_rejected (env env2 : Env) (npfx npfx2 : String) (s : Store)
    (req req2 : ProvisionRequest) (resp : ProvisionResponse) (s1 : Store)
    (calls : List ProvCall)
    (h : provision env npfx s req = (.ok resp, s1, calls))
    (hid : req2.instanceID = req.instanceID)
    (hai : req2.acceptsIncomplete = true) :
    provision env2 npfx2 s1 req2 =
      (.error (.unprocessableMsg "InstanceInvalid"
        "The instance ID was either already in-use or invalid."), s1, []) := by
  obtain ⟨hne, hany⟩ := provision_ok_row env npfx s req resp s1 calls h
  rw [provision, hid]
  simp only [hai, hne, Bool.not_true, Bool.false_eq_true, if_false]
  rw [validateInstanceID, hany]
  rfl



/-! Cold-provision facts: a fresh id and an empty pool force the fresh
bucket path. -/

theorem getInstanceById_fresh (env : Env) (s : Store) (id : String)
    (hfresh : s.resources.any (fun r => r.id == id) = false) :
    getInstanceById env s id = (.error "Cannot find resource instance", []) := by
  rw [getInstanceById, getInstanceEntry]
  have hnone : s.resources.find? (fun r => r.id == id && !r.deleted) = none := by
    apply List.find?_eq_none.mpr
    intro r hr
    have := List.any_eq_false.mp hfresh r hr
    simp only [Bool.and_eq_true, not_and]
    intro hid
    exact absurd hid this
  rw [hnone]

theorem bGetUnclaimedInstance_empty (env : Env) (s : Store) (planId instId : String)
    (hpool : poolCandidate s planId instId = none) :
    bGetUnclaimedInstance env s planId instId =
      (.error "Cannot find resource instance", s, []) := by
  rw [bGetUnclaimedInstance, getUnclaimedInstance, hpool]

theorem getPlansRows_mem (exp : String → String) (s : Store) (keep : PlanRow → Bool)
    (q : ProviderPlanModel) (hq : q ∈ getPlansRows exp s keep) :
    ∃ p ∈ s.plans, keep p = true ∧ ∃ sv, q = planRowToProviderPlan exp sv p := by
  rw [getPlansRows] at hq
  obtain ⟨p, hp, he⟩ := List.mem_filterMap.mp hq
  refine ⟨p, hp, ?_⟩
  cases hk : keep p with
  | false => rw [hk] at he; simp at he
  | true =>
    rw [hk] at he
    simp only [if_true] at he
    refine ⟨rfl, ?_⟩
    cases hps : planServiceName s p with
    | none => rw [hps] at he; simp at he
    | some sv =>
      rw [hps] at he
      simp only [Option.some.injEq] at he
      exact ⟨sv, he.symm⟩

theorem getPlanByID_ok_id (exp : String → String) (s : Store) (pid : String)
    (plan : ProviderPlanModel) (h : getPlanByID exp s pid = .ok plan) :
    plan.id = pid := by
  rw [getPlanByID] at h
  cases hr : getPlansRows exp s (fun p => p.plan == pid) with
  | nil => rw [hr] at h; simp at h
  | cons q rest =>
    rw [hr] at h
    rw [Except.ok.injEq] at h
    have hq : q ∈ getPlansRows exp s (fun p => p.plan == pid) := by
      rw [hr]; exact List.mem_cons_self q rest
    obtain ⟨p, _, hkeep, sv, hqe⟩ := getPlansRows_mem exp s _ q hq
    have hpid : p.plan = pid := by simpa using hkeep
    rw [← h, hqe]
    exact (congrArg (fun x => x) hpid)

/-- C7 amended: a cold provision (fresh id, empty pool) that succeeds makes
exactly one provider call, Provider.Provision with the requested instance
id and plan; the created row's name is the namePrefix followed by -u and
the generated uuid head; and because the aws-s3 provider always returns a
ready instance, the response is synchronous: exists=false, async = the
negation of Instance.Ready = false, and no operation key. -/
theorem c7_cold_provision (env : Env) (npfx : String) (s : Store) (req : ProvisionRequest)
    (resp : ProvisionResponse) (s1 : Store) (calls : List ProvCall)
    (hfresh : s.resources.any (fun r => r.id == req.instanceID) = false)
    (hpool : poolCandidate s req.planID req.instanceID = none)
    (h : provision env npfx s req = (.ok resp, s1, calls)) :
    calls = [.provisionCall req.instanceID req.planID req.organizationGUID] ∧
    resp = ⟨false, false, none⟩ ∧
    ∃ r ∈ s1.resources, r.id = req.instanceID ∧ r.name = npfx ++ "-u" ++ env.uuidHead ∧
      r.claimed = true ∧ r.status = "available" := by
  rw [provision] at h
  split at h
  · simp at h
  split at h
  · simp at h
  split at h
  · simp at h
  split at h
  · simp at h
  rename_i plan hplan
  have hplanid : plan.id = req.planID := getPlanByID_ok_id env.expandEnv s req.planID plan hplan
  split at h
  · rename_i inst cs hgi
    have := getInstanceById_ok_row env s req.instanceID inst cs hgi
    rw [hfresh] at this
    exact absurd this (by simp)
  · rename_i e cs hgi
    rw [getInstanceById_fresh env s req.instanceID hfresh] at hgi
    rw [Prod.mk.injEq, Except.error.injEq] at hgi
    obtain ⟨he, hcs⟩ := hgi
    rw [← he] at h
    simp only [beq_self_eq_true, if_true] at h
    split at h
    · rename_i inst sA csA hb
      rw [bGetUnclaimedInstance_empty env s req.planID req.instanceID hpool] at hb
      simp at hb
    · rename_i e2 sA csA hb
      rw [bGetUnclaimedInstance_empty env s req.planID req.instanceID hpool] at hb
      simp only [Prod.mk.injEq, Except.error.injEq] at hb
      obtain ⟨he2, hsA, hcsA⟩ := hb
      rw [← he2] at h
      simp only [beq_self_eq_true, if_true] at h
      rw [← hsA, ← hcsA, ← hcs] at h
      obtain ⟨hcalls, hresp, hrow⟩ :=
        provisionFresh_ok_shape env npfx s req plan ([] ++ []) resp s1 calls h
      rw [hplanid] at hcalls
      exact ⟨by simpa using hcalls, hresp, hrow⟩



/-! Concrete fixtures for closed evaluations: one service, one aws-s3 plan,
a healthy oracle environment, and request and task rows. -/

def svcRow : ServiceRow :=
  { service := "svc-1", name := "s3", humanName := "Amazon S3",
    description := "object store", categories := "data", image := "",
    beta := false, deprecated := false, deleted := false }

def planRow1 : PlanRow :=
  { plan := "plan-1", service := "svc-1", name := "basic", humanName := "Basic",
    description := "one bucket", version := "1", engineType := "s3",
    scheme := "https", categories := "data", costCents := 0, costUnit := "month",
    attributes := "", provider := "aws-s3", providerPrivateDetails := "detail",
    installInside := false, installOutside := true, multipleInstalls := false,
    sharing := false, preprovision := 0, beta := false, deprecated := false,
    deleted := false }

def store0 : Store :=
  { services := [svcRow], plans := [planRow1], resources := [], tasks := [],
    now := 0, nextTask := 0 }

def envOk : Env :=
  { expandEnv := fun v => v
    settingsOf := fun _ => .ok ⟨false, false, ""⟩
    arnOf := fun n => .ok ("arn:aws:s3:::" ++ n)
    uuidHead := "abcd1234"
    createUserRes := .ok ⟨"arn:aws:iam::123:user/u1", "u1", "AKIAFRESH", "SECRETFRESH"⟩
    createBucketRes := .ok "s3.amazonaws.com/fresh"
    tagResOf := fun _ => .ok ()
    bucketPolicyRes := .ok ()
    userPolicyRes := .ok ()
    attachRes := .ok ()
    deprovisionRes := .ok ()
    untagResOf := fun _ => .ok ()
    freshUuid := "fresh-uuid-1"
    region := "us-west-2"
    awsEnvOk := true
    addInstanceFault := false
    updateInstanceFault := false
    updateInstanceFault2 := false
    deleteInstanceFault := false
    newRequestFault := false
    httpRes := .ok 200
    retryWebhooks := false
    popFault := none }

def reqA : ProvisionRequest :=
  { instanceID := "inst-1", planID := "plan-1", acceptsIncomplete := true,
    organizationGUID := "org-1", webhookParam := "", secretParam := "" }

def reqC : ProvisionRequest :=
  { instanceID := "inst-7", planID := "plan-1", acceptsIncomplete := true,
    organizationGUID := "org-7", webhookParam := "", secretParam := "" }

def reqD : ProvisionRequest :=
  { instanceID := "inst-d", planID := "plan-1", acceptsIncomplete := true,
    organizationGUID := "org-d", webhookParam := "", secretParam := "" }

def envBad : Env :=
  { envOk with
    addInstanceFault := true
    deprovisionRes := .error "deprovision rate limited" }

def resRow1 : ResourceRow :=
  { id := "inst-1", name := "bucket-one", planId := "plan-1", claimed := true,
    status := "available", username := "AKIA1", password := "SECRET1",
    endpoint := "s3.amazonaws.com/bucket-one", updated := 0, deleted := false }

def hookTask : TaskRow :=
  { task := 0, resource := "inst-1", action := "notify-create-service-webhook",
    status := "pending", retries := 0,
    metadata := marshalWebhookMeta "http://callback.example.com/hook" "hooksecret",
    result := "", updated := 0, started := none, finished := none, deleted := false }

def storeHook : Store :=
  { services := [svcRow], plans := [planRow1], resources := [resRow1],
    tasks := [hookTask], now := 0, nextTask := 1 }

def envHook500 : Env := { envOk with httpRes := .ok 500 }

def ghostTask : TaskRow :=
  { task := 5, resource := "ghost", action := "perform-post-provision",
    status := "pending", retries := 0, metadata := "", result := "",
    updated := 0, started := none, finished := none, deleted := false }

def poolRow : ResourceRow :=
  { id := "pool-1", name := "bucket-pool", planId := "plan-1", claimed := false,
    status := "available", username := "AKIA2", password := "SECRET2",
    endpoint := "s3.amazonaws.com/bucket-pool", updated := 0, deleted := false }

def storePool : Store :=
  { services := [svcRow], plans := [planRow1], resources := [poolRow], tasks := [],
    now := 0, nextTask := 0 }

def instB : InstanceM :=
  ((getInstanceById envOk storeHook "inst-1").1.toOption).get (by rfl)

/-- C1 counterexample: at this concrete store the first Provision succeeds,
and the repeated Provision of the same id with accepts_incomplete=true
returns the InstanceInvalid unprocessable error with an empty provider
trace, not the documented success with exists=true. -/
theorem c1_second_provision_no_exists :
    (provision envOk "s3b" store0 reqA).1 = .ok ⟨false, false, none⟩ ∧
    (provision envOk "s3b" ((provision envOk "s3b" store0 reqA).2.1) reqA).1 =
      .error (.unprocessableMsg "InstanceInvalid"
        "The instance ID was either already in-use or invalid.") ∧
    (provision envOk "s3b" ((provision envOk "s3b" store0 reqA).2.1) reqA).2.2 = [] :=
  ⟨rfl, rfl, rfl⟩

theorem c1_reprovision_rejected_witness :
    reqA.instanceID = reqA.instanceID ∧ reqA.acceptsIncomplete = true ∧
    provision envOk "s3b" ((provision envOk "s3b" store0 reqA).2.1) reqA =
      (.error (.unprocessableMsg "InstanceInvalid"
        "The instance ID was either already in-use or invalid."),
       (provision envOk "s3b" store0 reqA).2.1, []) :=
  ⟨rfl, rfl, c1_reprovision_rejected envOk envOk "s3b" "s3b" store0 reqA reqA
    ⟨false, false, none⟩ _ _ rfl rfl rfl⟩

/-- C7 counterexample: a concrete cold provision through the aws-s3
provider answers synchronously: async=false and no operation key, against
the documented async=true with the instance id as operation key; the
trace still shows the single Provider.Provision call. -/
theorem c7_async_false_no_opkey :
    (provision envOk "s3c" store0 reqC).1 = .ok ⟨false, false, none⟩ ∧
    (provision envOk "s3c" store0 reqC).2.2 =
      [.provisionCall "inst-7" "plan-1" "org-7"] :=
  ⟨rfl, rfl⟩

theorem c7_cold_provision_witness :
    store0.resources.any (fun r => r.id == reqC.instanceID) = false ∧
    poolCandidate store0 reqC.planID reqC.instanceID = none ∧
    ((provision envOk "s3w" store0 reqC).2.2 =
        [.provisionCall reqC.instanceID reqC.planID reqC.organizationGUID] ∧
      (⟨false, false, none⟩ : ProvisionResponse) = ⟨false, false, none⟩ ∧
      ∃ r ∈ (provision envOk "s3w" store0 reqC).2.1.resources,
        r.id = reqC.instanceID ∧ r.name = "s3w" ++ "-u" ++ envOk.uuidHead ∧
        r.claimed = true ∧ r.status = "available") :=
  ⟨rfl, rfl, c7_cold_provision envOk "s3w" store0 reqC ⟨false, false, none⟩ _ _
    rfl rfl rfl⟩

/-- C3: when Provider.Provision succeeds, AddInstance fails and the
compensating Deprovision also fails, the delete-task enqueue hits the
tasks.resource foreign key (the resources row was never inserted), so no
task records the surviving bucket: the store is unchanged while the trace
shows the bucket was created and its deletion failed. -/
theorem c3_compensation_never_enqueued :
    (provision envBad "s3d" store0 reqD).1 = .error .internal ∧
    (provision envBad "s3d" store0 reqD).2.1 = store0 ∧
    (provision envBad "s3d" store0 reqD).2.2 =
      [.provisionCall "inst-d" "plan-1" "org-d",
       .deprovisionCall ("s3d-u" ++ envBad.uuidHead) false] ∧
    addTask store0 "inst-d" "delete" ("s3d-u" ++ envBad.uuidHead) =
      .error "pq: insert or update on table tasks violates foreign key constraint tasks_resource_fkey" :=
  ⟨rfl, rfl, rfl, rfl⟩

/-- C5 counterexample: a webhook task whose callback answers 500 with
RETRY_WEBHOOKS unset is driven by the worker to status failed while its
finished stamp stays null (its started stamp is set). -/
theorem c5_failed_without_finished :
    ((findTask (workerIteration envHook500 storeHook).1 0).map
        (fun u => (u.status, u.finished, u.started))) =
      some ("failed", none, some 0) :=
  rfl

theorem c5_terminal_finished_witness :
    tasksUnique storeHook.tasks = true ∧
    (∀ s2 t posts, workerIteration envOk storeHook = (s2, .ran t, posts) →
      ∀ u, findTask s2 t.task = some u →
      (u.status = "finished" ∨ u.status = "failed") →
      (∃ st f, u.started = some st ∧ u.finished = some f ∧ st ≤ f) ∨
      (u.status = "failed" ∧ u.finished = t.finished ∧
        t.action = "notify-create-service-webhook" ∧ envOk.retryWebhooks = false)) :=
  ⟨rfl, c5_terminal_finished envOk storeHook rfl⟩

/-- C6 counterexample: the perform-post-provision branch answers the
cannot-get-instance error by re-writing the task as pending with the
retries counter unchanged instead of incremented. -/
theorem c6_retries_not_incremented :
    ((dispatchCore envOk store0 ghostTask).2.1).map
        (fun w => (w.status, w.retries, w.setFinished)) =
      some ("pending", 0, false) ∧
    ghostTask.retries = 0 :=
  ⟨rfl, rfl⟩

theorem c2_pool_claim_witness :
    resourcesUnique storePool.resources = true ∧
    ((∀ e s', getUnclaimedInstance storePool "plan-1" "new-1" = (.ok e, s') →
      ∃ row ∈ storePool.resources,
        row.claimed = false ∧ row.status = "available" ∧ row.deleted = false ∧
        row.planId = "plan-1" ∧ row.id ≠ "new-1" ∧
        (s'.resources.filter (fun r => r.id == "new-1")).length = 1 ∧
        (∀ r ∈ s'.resources, r.id = "new-1" →
          r.claimed = true ∧ r.name = row.name ∧ r.planId = row.planId ∧
          r.status = row.status ∧ r.username = row.username ∧
          r.password = row.password ∧ r.endpoint = row.endpoint) ∧
        (∀ t ∈ storePool.tasks, t.deleted = false → t.resource = row.id →
          ∃ t' ∈ s'.tasks, t'.task = t.task ∧ t'.resource = "new-1") ∧
        (∀ r ∈ s'.resources, r.id ≠ row.id)) ∧
    (poolCandidate storePool "plan-1" "new-1" = none →
      getUnclaimedInstance storePool "plan-1" "new-1" =
        (.error "Cannot find resource instance", storePool))) :=
  ⟨rfl, c2_pool_claim storePool "plan-1" "new-1" rfl⟩

theorem c10_unbind_ready_gate_witness :
    (getInstanceById envOk storeHook "inst-1").1 = .ok instB ∧
    ((instB.ready = false →
      (unbind envOk storeHook "inst-1").1 = .error .unprocessable ∧
      untagsOf (unbind envOk storeHook "inst-1").2 = []) ∧
    (∀ resp, (unbind envOk storeHook "inst-1").1 = .ok resp →
      instB.ready = true ∧ resp.async = false ∧
      untagsOf (unbind envOk storeHook "inst-1").2 =
        [.untagCall instB.name "Binding", .untagCall instB.name "App"])) :=
  ⟨rfl, c10_unbind_ready_gate envOk storeHook "inst-1" instB rfl⟩

theorem c4_webhook_post_shape_witness :
    goJsonSafe "http://callback.example.com/hook" = true ∧
    goJsonSafe "hooksecret" = true ∧
    (∀ post ∈ (dispatchTask envOk storeHook hookTask).2.2,
      post.body = webhookBody ∧
      post.body = "\x7b\"description\":\"available\",\"state\":\"succeeded\"\x7d" ∧
      post.url = "http://callback.example.com/hook" ∧
      post.headers =
        [("content-type", "application/json"),
         ("x-osb-signature",
          base64Encode (hmacSha256 (strBytes "hooksecret") (strBytes post.body)))] ∧
      verifyOsbSignature "hooksecret" post = true) :=
  ⟨rfl, rfl, c4_webhook_post_shape envOk storeHook hookTask
    "http://callback.example.com/hook" "hooksecret" rfl rfl rfl⟩



def hookWrite : TaskWrite := ⟨0, "200", "finished", true⟩

theorem c6_retry_accounting_witness :
    (dispatchCore envOk storeHook hookTask).2.1 = some hookWrite ∧
    ((hookWrite.status = "pending" →
        hookWrite.setFinished = false ∧ hookWrite.result ≠ "" ∧
        (hookWrite.retries = hookTask.retries + 1 ∨ hookWrite.retries = hookTask.retries)) ∧
      (hookWrite.status = "failed" → hookWrite.setFinished = false →
        hookTask.action = "notify-create-service-webhook" ∧ envOk.retryWebhooks = false ∧
        hookWrite.retries = hookTask.retries + 1 ∧ hookWrite.result ≠ "") ∧
      (hookWrite.setFinished = false → ∀ s' u, findTask s' hookTask.task = some u →
        (findTask (applyTaskWrite s' hookTask.task hookWrite) hookTask.task).map
            (fun v => (v.started, v.finished)) =
          some (u.started, u.finished)) ∧
      (hookTask.retries ≥ retryCap hookTask.action →
        hookWrite.status = "failed" ∧ hookWrite.setFinished = true ∧ hookWrite.result ≠ "")) :=
  ⟨rfl, c6_retry_accounting envOk storeHook hookTask hookWrite rfl⟩


end S3Broker
